import Mathlib

/-!
# sso-grpc: the authentication service, its token codec and its gRPC layer

A shallow embedding of

* `internal/grpc/auth/response.go`, `internal/grpc/auth/server.go` (protocol layer),
* `internal/services/auth/auth.go` (the Auth Service),
* `internal/lib/jwt/jwt.go`, `internal/domain/models` (token codec and models),
* `internal/database/auth/auth.go`, `internal/database/app/app.go` (repositories).

Go values `(T, error)` of the service are pairs `T × Option Err`; the
repositories and libraries return `Except`.  Stateful code is a function
`World → result × World`; `World.calls` records, in order, every call an
operation makes to a repository, to bcrypt and to the token codec.  Logging is
left out: it has no effect on a result.
-/

namespace SSO

/-! ## Errors and transport statuses -/

/-- Go `error` values that reach the service boundary.  The four sentinels are
the package variables of `internal/services/auth/auth.go`; `other msg` is any
other error value (storage, bcrypt and jwt errors).  The sentinels are compared
by identity in Go, so `other "unauthorized"` is not `ErrUnauthorized`. -/
inductive Err where
  | ErrInvPassOrEmail
  | ErrUserAlreadyExist
  | ErrInvalidData
  | ErrUnauthorized
  | other (msg : String)
deriving DecidableEq, Repr

/-- The text of an error, `err.Error()`. -/
def Err.Error : Err → String
  | .ErrInvPassOrEmail => "invalid password or email"
  | .ErrUserAlreadyExist => "user already registered"
  | .ErrInvalidData => "invalid data"
  | .ErrUnauthorized => "unauthorized"
  | .other msg => msg

/-- The gRPC codes the repository uses (`google.golang.org/grpc/codes`). -/
inductive Code where
  | InvalidArgument
  | AlreadyExists
  | Unauthenticated
  | Internal
deriving DecidableEq, Repr

/-- A gRPC status error, `status.Error(code, msg)`. -/
structure Status where
  code : Code
  msg : String
deriving DecidableEq, Repr

/-- `ResponseError` of `internal/grpc/auth/response.go`. -/
def ResponseError (err : Err) : Status :=
  match err with
  | .ErrInvPassOrEmail => ⟨.InvalidArgument, Err.Error .ErrInvPassOrEmail⟩
  | .ErrUserAlreadyExist => ⟨.AlreadyExists, Err.Error .ErrUserAlreadyExist⟩
  | .ErrInvalidData => ⟨.InvalidArgument, Err.Error .ErrInvalidData⟩
  | .ErrUnauthorized => ⟨.Unauthenticated, Err.Error .ErrUnauthorized⟩
  | .other _ => ⟨.Internal, "internal error"⟩

/-! ## Third-party primitives -/

/-- A JSON value of a token payload.  `num` is an integer literal that fits
int64, `strs` an array of strings, `other` any other value (another array, an
object, a number that is not such an integer). -/
inductive JVal where
  | null
  | bool (b : Bool)
  | num (n : Int)
  | str (s : String)
  | strs (l : List String)
  | other (tag : Nat)
deriving DecidableEq, Repr

/-- The members of a claims object (`jwt.MapClaims` once marshalled), in order. -/
abbrev MapClaims := List (String × JVal)

/-- The cryptographic primitives of the libraries, taken as parameters:
`hmac alg key input` is the HMAC of the signing input (header and claims
segments of a token) under `key` for the method `alg`; `bcrypt cost salt
password` is the bcrypt digest. -/
structure Crypto where
  hmac : String → String → String × MapClaims → String
  bcrypt : Nat → String → String → String

/-! ## Models (`internal/domain/models`) -/

/-- A token string, by what `jwt.Parser.ParseUnverified` and the decoding of
the signature segment make of it.  `raw s` is text that is not three base64url
segments holding a JSON header with a string `alg` and a JSON claims object
(the empty string is `raw ""`); `jws alg claims sig` is a compact token with
that header algorithm, those claims members and that signature. -/
inductive TokenString where
  | raw (s : String)
  | jws (alg : String) (claims : MapClaims) (sig : String)
deriving DecidableEq, Repr

/-- A password-hash string, by what bcrypt's `newFromHash` makes of it: `raw s`
is text that is not a bcrypt hash, `bcrypt cost salt digest` is one. -/
inductive HashString where
  | raw (s : String)
  | bcrypt (cost : Nat) (salt digest : String)
deriving DecidableEq, Repr

/-- Go's `jwt.RegisteredClaims` (golang-jwt v5); dates are Unix seconds, `none` is a nil pointer. -/
structure RegisteredClaims where
  Issuer : String := ""
  Subject : String := ""
  Audience : List String := []
  ExpiresAt : Option Int := none
  NotBefore : Option Int := none
  IssuedAt : Option Int := none
  ID : String := ""
deriving DecidableEq, Repr

/-- Go's `models.Token`: the embedded `jwt.RegisteredClaims` and the three
fields tagged `user_id`, `app_id` and `exp`. -/
structure Token where
  toRegisteredClaims : RegisteredClaims := {}
  UserID : Int := 0
  AppID : Int := 0
  Expires : Int := 0
deriving DecidableEq, Repr

/-- Go's `models.TokensPair`. -/
structure TokensPair where
  AccessToken : TokenString
  RefreshToken : TokenString
deriving DecidableEq, Repr

/-- The zero value `models.TokensPair{}`: two empty strings. -/
def TokensPair.empty : TokensPair := ⟨.raw "", .raw ""⟩

/-- Go's `models.User`. -/
structure User where
  ID : Int
  Name : String
  Email : String
  PassHash : HashString
deriving DecidableEq, Repr

/-- Go's `models.UserRead`. -/
structure UserRead where
  ID : Int
  Name : String
  Email : String
deriving DecidableEq, Repr

/-- The zero value `models.UserRead{}`. -/
def UserRead.empty : UserRead := ⟨0, "", ""⟩

/-- Go's `models.App`, as `GetAppByID` scans it. -/
structure App where
  ID : Int
  Name : String
  Secret : String
  RefreshSecret : String
deriving DecidableEq, Repr

/-- Go's `models.Admin`, as `IsAdmin` scans it. -/
structure Admin where
  ID : Int
  UserID : Int
  AppID : Int
deriving DecidableEq, Repr

/-! ## The world: storage, clock, randomness and the call trace -/

/-- A call of an Auth Service operation to one of its collaborators. -/
inductive Call where
  | CheckUser (email : String)
  | CreateUser (user : User)
  | GetUserByEmail (email : String)
  | GetUserByID (userID : Int)
  | IsAdmin (userID appID : Int)
  | GetAppByID (appID : Int)
  | GenerateFromPassword (password : String)
  | CompareHashAndPassword (hash : HashString) (password : String)
  | CreateToken (userID appID : Int) (secret : String) (expires : Int)
  | DecodeToken (token : TokenString) (secret : String)
deriving DecidableEq, Repr

/-- What the service runs against.  `users`, `apps`, `admins` are the tables
`public.user`, `app`, `admin`; `nextUserID` is the serial of `public.user.id`;
`beginErr`, `queryErr`, `commitErr` make `pool.Begin`, a query and `tx.Commit`
fail with that text; `now` is `time.Now()` in nanoseconds since the epoch;
`salt` is the salt `crypto/rand` yields (`none`: reading it fails); `calls` is
the trace. -/
structure World where
  users : List User := []
  apps : List App := []
  admins : List Admin := []
  nextUserID : Int := 1
  beginErr : Option String := none
  queryErr : Option String := none
  commitErr : Option String := none
  now : Int := 0
  salt : Option String := some "salt"
  calls : List Call := []
deriving DecidableEq, Repr

/-- Appends a call to the trace. -/
def World.call (w : World) (c : Call) : World :=
  { w with calls := w.calls ++ [c] }

/-! ## Repositories (`internal/database/auth/auth.go`, `internal/database/app/app.go`) -/

/-- `AuthDB.CheckUser`: `SELECT id FROM public.user WHERE email = $1`; no row is
`(false, nil)`. -/
def AuthDB.CheckUser (email : String) (w : World) : Except Err Bool :=
  match w.beginErr with
  | some e => .error (.other e)
  | none =>
    match w.queryErr with
    | some e => .error (.other e)
    | none =>
      match w.users.find? (fun u => u.Email == email) with
      | none => .ok false
      | some _ => .ok true

/-- Modelled from the spec: the schema of `public.user` (the migrations are not
among the sources) makes `email` unique, so the insert of an email that a row
already has is refused. -/
def uniqueEmailViolated (email : String) (users : List User) : Bool :=
  users.any (fun u => u.Email == email)

/-- `AuthDB.CreateUser`: `INSERT INTO public.user (email, hash_password, name)
... RETURNING id`, then commit.  Every failure of the query is reported as
"failed to create user"; the id is the next value of the serial. -/
def AuthDB.CreateUser (user : User) (w : World) : Except Err Int × World :=
  match w.beginErr with
  | some e => (.error (.other e), w)
  | none =>
    if w.queryErr.isSome then (.error (.other "failed to create user"), w)
    else if uniqueEmailViolated user.Email w.users then
      (.error (.other "failed to create user"), { w with nextUserID := w.nextUserID + 1 })
    else
      match w.commitErr with
      | some e => (.error (.other e), { w with nextUserID := w.nextUserID + 1 })
      | none =>
        (.ok w.nextUserID,
          { w with
            users := w.users ++ [{ user with ID := w.nextUserID }]
            nextUserID := w.nextUserID + 1 })

/-- `AuthDB.GetUserByEmail`: `SELECT id, name, email, hash_password FROM
public.user WHERE email = $1`; no row is the error "user not found". -/
def AuthDB.GetUserByEmail (email : String) (w : World) : Except Err User :=
  match w.beginErr with
  | some e => .error (.other e)
  | none =>
    match w.queryErr with
    | some e => .error (.other e)
    | none =>
      match w.users.find? (fun u => u.Email == email) with
      | none => .error (.other "user not found")
      | some user => .ok user

/-- `AuthDB.GetUserByID`: the same query by `id`. -/
def AuthDB.GetUserByID (userID : Int) (w : World) : Except Err User :=
  match w.beginErr with
  | some e => .error (.other e)
  | none =>
    match w.queryErr with
    | some e => .error (.other e)
    | none =>
      match w.users.find? (fun u => u.ID == userID) with
      | none => .error (.other "user not found")
      | some user => .ok user

/-- `AuthDB.IsAdmin`: `SELECT id, user_id, app_id FROM admin WHERE user_id = $1
AND app_id = $2`; no row is `(false, nil)`. -/
def AuthDB.IsAdmin (userID appID : Int) (w : World) : Except Err Bool :=
  match w.beginErr with
  | some e => .error (.other e)
  | none =>
    match w.queryErr with
    | some e => .error (.other e)
    | none =>
      match w.admins.find? (fun r => r.UserID == userID && r.AppID == appID) with
      | none => .ok false
      | some _ => .ok true

/-- `AppDB.GetAppByID`: `SELECT id, name, secret, refresh_secret FROM app WHERE
id = $1`; no row is the error "app not found". -/
def AppDB.GetAppByID (appID : Int) (w : World) : Except Err App :=
  match w.beginErr with
  | some e => .error (.other e)
  | none =>
    match w.queryErr with
    | some e => .error (.other e)
    | none =>
      match w.apps.find? (fun r => r.ID == appID) with
      | none => .error (.other "app not found")
      | some app => .ok app

/-! ## bcrypt (`golang.org/x/crypto/bcrypt`) -/

/-- `bcrypt.DefaultCost`. -/
def bcrypt.DefaultCost : Nat := 10

/-- `bcrypt.GenerateFromPassword(password, cost)`: refuses a password of more
than 72 bytes (`ErrPasswordTooLong`), draws a salt and returns the hash string. -/
def bcrypt.GenerateFromPassword (C : Crypto) (salt : Option String) (password : String)
    (cost : Nat) : Except Err HashString :=
  if password.utf8ByteSize > 72 then
    .error (.other "bcrypt: password length exceeds 72 bytes")
  else
    match salt with
    | none => .error (.other "crypto/rand: read failed")
    | some s => .ok (.bcrypt cost s (C.bcrypt cost s password))

/-- `bcrypt.CompareHashAndPassword(hash, password)`: `none` (nil) on a match. -/
def bcrypt.CompareHashAndPassword (C : Crypto) (hash : HashString) (password : String) :
    Option Err :=
  match hash with
  | .raw _ => some (.other "crypto/bcrypt: hashedSecret is not a bcrypt hash")
  | .bcrypt cost salt digest =>
    if cost < 4 ∨ 31 < cost then some (.other "crypto/bcrypt: cost is outside the allowed range")
    else if C.bcrypt cost salt password = digest then none
    else some (.other "crypto/bcrypt: hashedPassword is not the hash of the given password")

/-! ## Token codec (`internal/lib/jwt/jwt.go` over `github.com/golang-jwt/jwt/v5`) -/

/-- Unix seconds of an instant given in nanoseconds, `Time.Unix()`. -/
def unix (t : Int) : Int := t / 1000000000

/-- Whether `alg` names one of the HMAC signing methods. -/
def jwt.isHMAC (alg : String) : Bool :=
  alg == "HS256" || alg == "HS384" || alg == "HS512"

/-- `token.SignedString(key)` with a byte-slice key: the HMAC methods sign, the
other methods refuse such a key. -/
def jwt.SignedString (C : Crypto) (alg : String) (claims : MapClaims) (key : String) :
    Except Err TokenString :=
  if jwt.isHMAC alg then .ok (.jws alg claims (C.hmac alg key (alg, claims)))
  else .error (.other "key is of invalid type")

/-- `CreateToken` of `internal/lib/jwt/jwt.go`, called at the instant `now`:
an HS512 token with the claims `user_id`, `app_id` and
`exp = time.Now().Add(expires).Unix()` (a map is marshalled with sorted keys). -/
def jwt.CreateToken (C : Crypto) (now : Int) (userID appID : Int) (secret : String)
    (expires : Int) : Except Err TokenString :=
  let claims : MapClaims :=
    [("app_id", .num appID), ("exp", .num (unix (now + expires))), ("user_id", .num userID)]
  match jwt.SignedString C "HS512" claims secret with
  | .error err => .error err
  | .ok tokenString => .ok tokenString

/-- The error of `json.Unmarshal` on a member of the wrong JSON type. -/
def jwt.malformed : Err :=
  .other "token is malformed: could not JSON decode claim"

/-- A JSON value stored in an integer field (`int64`, `int`, `time.Duration`):
null keeps the field, `old`. -/
def JVal.toInt (v : JVal) (old : Int) : Except Err Int :=
  match v with
  | .null => .ok old
  | .num n => .ok n
  | .bool _ => .error jwt.malformed
  | .str _ => .error jwt.malformed
  | .strs _ => .error jwt.malformed
  | .other _ => .error jwt.malformed

/-- A JSON value stored in a `*jwt.NumericDate` field: null is the nil pointer. -/
def JVal.toNumericDate (v : JVal) : Except Err (Option Int) :=
  match v with
  | .null => .ok none
  | .num n => .ok (some n)
  | .bool _ => .error jwt.malformed
  | .str _ => .error jwt.malformed
  | .strs _ => .error jwt.malformed
  | .other _ => .error jwt.malformed

/-- A JSON value stored in a `string` field: null keeps the field. -/
def JVal.toString (v : JVal) (old : String) : Except Err String :=
  match v with
  | .null => .ok old
  | .str x => .ok x
  | .bool _ => .error jwt.malformed
  | .num _ => .error jwt.malformed
  | .strs _ => .error jwt.malformed
  | .other _ => .error jwt.malformed

/-- A JSON value stored in a `jwt.ClaimStrings` field: a string or an array of
strings; null keeps the field. -/
def JVal.toClaimStrings (v : JVal) (old : List String) : Except Err (List String) :=
  match v with
  | .null => .ok old
  | .str x => .ok [x]
  | .strs l => .ok l
  | .bool _ => .error jwt.malformed
  | .num _ => .error jwt.malformed
  | .other _ => .error jwt.malformed

/-- What `json.Unmarshal` does with one member of the claims object when the
target is `*models.Token`.  The field `Expires` (tag `exp`) of `models.Token`
is less nested than `RegisteredClaims.ExpiresAt` (tag `exp` too), so by the
rules of `encoding/json` the member `exp` is stored in `Expires` and
`ExpiresAt` is never written.  Member names are matched exactly; a member
with another name is skipped. -/
def Token.setMember (t : Token) (key : String) (v : JVal) : Except Err Token :=
  let r := t.toRegisteredClaims
  if key = "user_id" then
    match v.toInt t.UserID with
    | .error err => .error err
    | .ok n => .ok { t with UserID := n }
  else if key = "app_id" then
    match v.toInt t.AppID with
    | .error err => .error err
    | .ok n => .ok { t with AppID := n }
  else if key = "exp" then
    match v.toInt t.Expires with
    | .error err => .error err
    | .ok n => .ok { t with Expires := n }
  else if key = "nbf" then
    match v.toNumericDate with
    | .error err => .error err
    | .ok d => .ok { t with toRegisteredClaims := { r with NotBefore := d } }
  else if key = "iat" then
    match v.toNumericDate with
    | .error err => .error err
    | .ok d => .ok { t with toRegisteredClaims := { r with IssuedAt := d } }
  else if key = "iss" then
    match v.toString r.Issuer with
    | .error err => .error err
    | .ok x => .ok { t with toRegisteredClaims := { r with Issuer := x } }
  else if key = "sub" then
    match v.toString r.Subject with
    | .error err => .error err
    | .ok x => .ok { t with toRegisteredClaims := { r with Subject := x } }
  else if key = "jti" then
    match v.toString r.ID with
    | .error err => .error err
    | .ok x => .ok { t with toRegisteredClaims := { r with ID := x } }
  else if key = "aud" then
    match v.toClaimStrings r.Audience with
    | .error err => .error err
    | .ok l => .ok { t with toRegisteredClaims := { r with Audience := l } }
  else .ok t

/-- Go's `json.Unmarshal(claimBytes, &claims)` into a `*models.Token`: the
members are stored one after the other. -/
def Token.Unmarshal : MapClaims → Token → Except Err Token
  | [], t => .ok t
  | (key, v) :: rest, t =>
    match t.setMember key v with
    | .error err => .error err
    | .ok t1 => Token.Unmarshal rest t1

/-- `Method.Verify(text, sig, key)` with a byte-slice key: an HMAC method
recomputes the signature, every other method (`none` included) refuses the key. -/
def jwt.Verify (C : Crypto) (alg : String) (claims : MapClaims) (sig : String)
    (key : String) : Bool :=
  jwt.isHMAC alg && C.hmac alg key (alg, claims) == sig

/-- The default `Validator.Validate` of golang-jwt v5 on the registered claims
at the instant `now`: `exp` and `nbf` are checked when present
(`GetExpirationTime` and `GetNotBefore` read `ExpiresAt` and `NotBefore`);
issuer, subject, audience and issued-at are not checked by default. -/
def jwt.Validate (now : Int) (c : RegisteredClaims) : Bool :=
  (match c.ExpiresAt with
    | none => true
    | some exp => decide (now < exp * 1000000000)) &&
  (match c.NotBefore with
    | none => true
    | some nbf => decide (nbf * 1000000000 ≤ now))

/-- `DecodeToken` of `internal/lib/jwt/jwt.go`, called at the instant `now`:
`jwt.ParseWithClaims(token, &model, keyfunc)` parses the segments, unmarshals
the claims into `model`, verifies the signature under `secret` and validates
the claims; any failure is the error "failed to decode token". -/
def jwt.DecodeToken (C : Crypto) (now : Int) (token : TokenString) (secret : String) :
    Except Err Token :=
  match token with
  | .raw _ => .error (.other "failed to decode token: token is malformed")
  | .jws alg claims sig =>
    match Token.Unmarshal claims {} with
    | .error _ => .error (.other "failed to decode token: token is malformed")
    | .ok model =>
      if !jwt.Verify C alg claims sig secret then
        .error (.other "failed to decode token: token signature is invalid")
      else if !jwt.Validate now model.toRegisteredClaims then
        .error (.other "failed to decode token: token has invalid claims")
      else .ok model

/-! ## The Auth Service (`internal/services/auth/auth.go`) -/

/-- Go's `AuthService`: the two lifetimes, in nanoseconds (`time.Duration`).
The repositories are the tables of the `World`. -/
structure AuthService where
  tokenExpires : Int
  refreshTokenExpires : Int
deriving DecidableEq, Repr

/-- `AuthService.Register`. -/
def AuthService.Register (_a : AuthService) (C : Crypto) (email password name : String)
    (w : World) : (Int × Option Err) × World :=
  let w := w.call (.CheckUser email)
  match AuthDB.CheckUser email w with
  | .error err => ((0, some err), w)
  | .ok checkUser =>
    if checkUser then ((0, some .ErrUserAlreadyExist), w)
    else
      let w := w.call (.GenerateFromPassword password)
      match bcrypt.GenerateFromPassword C w.salt password bcrypt.DefaultCost with
      | .error err => ((0, some err), w)
      | .ok hashPassword =>
        let user : User := { ID := 0, Email := email, PassHash := hashPassword, Name := name }
        let w := w.call (.CreateUser user)
        match AuthDB.CreateUser user w with
        | (.error err, w) => ((0, some err), w)
        | (.ok userID, w) => ((userID, none), w)

/-- `AuthService.Login`. -/
def AuthService.Login (a : AuthService) (C : Crypto) (email password : String) (appID : Int)
    (w : World) : (TokensPair × Option Err) × World :=
  let w := w.call (.GetUserByEmail email)
  match AuthDB.GetUserByEmail email w with
  | .error _ => ((TokensPair.empty, some .ErrInvPassOrEmail), w)
  | .ok user =>
    let w := w.call (.CompareHashAndPassword user.PassHash password)
    match bcrypt.CompareHashAndPassword C user.PassHash password with
    | some _ => ((TokensPair.empty, some .ErrInvPassOrEmail), w)
    | none =>
      let w := w.call (.GetAppByID appID)
      match AppDB.GetAppByID appID w with
      | .error _ => ((TokensPair.empty, some .ErrInvalidData), w)
      | .ok app =>
        if app.Secret = "" ∨ app.RefreshSecret = "" then
          ((TokensPair.empty, some .ErrInvalidData), w)
        else
          let w := w.call (.CreateToken user.ID app.ID app.Secret a.tokenExpires)
          match jwt.CreateToken C w.now user.ID app.ID app.Secret a.tokenExpires with
          | .error err => ((TokensPair.empty, some err), w)
          | .ok token =>
            let w := w.call (.CreateToken user.ID app.ID app.RefreshSecret a.refreshTokenExpires)
            match jwt.CreateToken C w.now user.ID app.ID app.RefreshSecret
                a.refreshTokenExpires with
            | .error err => ((TokensPair.empty, some err), w)
            | .ok refreshToken =>
              (({ AccessToken := token, RefreshToken := refreshToken }, none), w)

/-- `AuthService.IsAdmin`. -/
def AuthService.IsAdmin (_a : AuthService) (userID appID : Int) (w : World) :
    (Bool × Option Err) × World :=
  let w := w.call (.IsAdmin userID appID)
  match AuthDB.IsAdmin userID appID w with
  | .error err => ((false, some err), w)
  | .ok isAdmin => ((isAdmin, none), w)

/-- `AuthService.RefreshToken`. -/
def AuthService.RefreshToken (a : AuthService) (C : Crypto) (token : TokenString) (appID : Int)
    (w : World) : (TokensPair × Option Err) × World :=
  let w := w.call (.GetAppByID appID)
  match AppDB.GetAppByID appID w with
  | .error _ => ((TokensPair.empty, some .ErrInvalidData), w)
  | .ok app =>
    if app.Secret = "" ∨ app.RefreshSecret = "" then
      ((TokensPair.empty, some .ErrInvalidData), w)
    else
      let w := w.call (.DecodeToken token app.RefreshSecret)
      match jwt.DecodeToken C w.now token app.RefreshSecret with
      | .error _ => ((TokensPair.empty, some .ErrUnauthorized), w)
      | .ok decodeToken =>
        let w := w.call (.CreateToken decodeToken.UserID app.ID app.Secret a.tokenExpires)
        match jwt.CreateToken C w.now decodeToken.UserID app.ID app.Secret a.tokenExpires with
        | .error err => ((TokensPair.empty, some err), w)
        | .ok accessToken =>
          let w := w.call
            (.CreateToken decodeToken.UserID app.ID app.RefreshSecret a.refreshTokenExpires)
          match jwt.CreateToken C w.now decodeToken.UserID app.ID app.RefreshSecret
              a.refreshTokenExpires with
          | .error err => ((TokensPair.empty, some err), w)
          | .ok refreshToken =>
            (({ AccessToken := accessToken, RefreshToken := refreshToken }, none), w)

/-- `AuthService.CurrentUser`. -/
def AuthService.CurrentUser (_a : AuthService) (C : Crypto) (token : TokenString) (appID : Int)
    (w : World) : (UserRead × Option Err) × World :=
  let w := w.call (.GetAppByID appID)
  match AppDB.GetAppByID appID w with
  | .error _ => ((UserRead.empty, some .ErrInvalidData), w)
  | .ok app =>
    if app.Secret = "" ∨ app.RefreshSecret = "" then
      ((UserRead.empty, some .ErrInvalidData), w)
    else
      let w := w.call (.DecodeToken token app.Secret)
      match jwt.DecodeToken C w.now token app.Secret with
      | .error _ => ((UserRead.empty, some .ErrUnauthorized), w)
      | .ok decodeToken =>
        let w := w.call (.GetUserByID decodeToken.UserID)
        match AuthDB.GetUserByID decodeToken.UserID w with
        | .error _ => ((UserRead.empty, some .ErrInvalidData), w)
        | .ok user => (({ ID := user.ID, Email := user.Email, Name := user.Name }, none), w)

/-! ## The protocol layer (`internal/grpc/auth/server.go`) -/

/-- The constant `emptyValue`. -/
def emptyValue : Int := 0

/-- The message `ssov1.LoginRequest`. -/
structure LoginRequest where
  Email : String
  Password : String
  AppId : Int
deriving DecidableEq, Repr

/-- The message `ssov1.RegisterRequest`. -/
structure RegisterRequest where
  Email : String
  Password : String
  Name : String
deriving DecidableEq, Repr

/-- The message `ssov1.IsAdminRequest`. -/
structure IsAdminRequest where
  UserId : Int
  AppId : Int
deriving DecidableEq, Repr

/-- The message `ssov1.RefreshTokenRequest`. -/
structure RefreshTokenRequest where
  Token : TokenString
  AppId : Int
deriving DecidableEq, Repr

/-- The message `ssov1.CurrentUserRequest`. -/
structure CurrentUserRequest where
  Token : TokenString
  AppId : Int
deriving DecidableEq, Repr

/-- The message `ssov1.LoginResponse`. -/
structure LoginResponse where
  AccessToken : TokenString
  RefreshToken : TokenString
deriving DecidableEq, Repr

/-- The message `ssov1.RegisterResponse`. -/
structure RegisterResponse where
  UserId : Int
deriving DecidableEq, Repr

/-- The message `ssov1.IsAdminResponse`. -/
structure IsAdminResponse where
  IsAdmin : Bool
deriving DecidableEq, Repr

/-- The message `ssov1.RefreshTokenResponse`. -/
structure RefreshTokenResponse where
  AccessToken : TokenString
  RefreshToken : TokenString
deriving DecidableEq, Repr

/-- The message `ssov1.CurrentUserResponse`. -/
structure CurrentUserResponse where
  UserId : Int
  Email : String
  Name : String
deriving DecidableEq, Repr

/-- `validateLogin`; `none` is nil. -/
def validateLogin (req : LoginRequest) : Option Status :=
  if req.Email = "" then some ⟨.InvalidArgument, "empty email"⟩
  else if req.Password = "" then some ⟨.InvalidArgument, "empty password"⟩
  else if req.AppId = emptyValue then some ⟨.InvalidArgument, "empty app id"⟩
  else none

/-- `validateRegister`. -/
def validateRegister (req : RegisterRequest) : Option Status :=
  if req.Email = "" then some ⟨.InvalidArgument, "empty email"⟩
  else if req.Password = "" then some ⟨.InvalidArgument, "empty password"⟩
  else if req.Name = "" then some ⟨.InvalidArgument, "empty name"⟩
  else none

/-- `validateIsAdmin`. -/
def validateIsAdmin (req : IsAdminRequest) : Option Status :=
  if req.UserId = emptyValue then some ⟨.InvalidArgument, "empty user id"⟩
  else if req.AppId = emptyValue then some ⟨.InvalidArgument, "empty app id"⟩
  else none

/-- `validateRefreshToken`. -/
def validateRefreshToken (req : RefreshTokenRequest) : Option Status :=
  if req.Token = .raw "" then some ⟨.InvalidArgument, "empty token"⟩
  else if req.AppId = emptyValue then some ⟨.InvalidArgument, "empty app id"⟩
  else none

/-- `validateCurrentUser`. -/
def validateCurrentUser (req : CurrentUserRequest) : Option Status :=
  if req.Token = .raw "" then some ⟨.InvalidArgument, "empty token"⟩
  else if req.AppId = emptyValue then some ⟨.InvalidArgument, "empty app id"⟩
  else none

/-- The handler `serverAPI.Login`; the service behind `s.auth` is the
`AuthService` of this repository. -/
def serverAPI.Login (a : AuthService) (C : Crypto) (req : LoginRequest) (w : World) :
    Except Status LoginResponse × World :=
  match validateLogin req with
  | some err => (.error err, w)
  | none =>
    match a.Login C req.Email req.Password req.AppId w with
    | ((_, some err), w) => (.error (ResponseError err), w)
    | ((tokens, none), w) =>
      (.ok { AccessToken := tokens.AccessToken, RefreshToken := tokens.RefreshToken }, w)

/-- The handler `serverAPI.Register`. -/
def serverAPI.Register (a : AuthService) (C : Crypto) (req : RegisterRequest) (w : World) :
    Except Status RegisterResponse × World :=
  match validateRegister req with
  | some err => (.error err, w)
  | none =>
    match a.Register C req.Email req.Password req.Name w with
    | ((_, some err), w) => (.error (ResponseError err), w)
    | ((userID, none), w) => (.ok { UserId := userID }, w)

/-- The handler `serverAPI.IsAdmin`: a request that fails `validateIsAdmin` is
answered with `status.Error(codes.Internal, "internal error")`. -/
def serverAPI.IsAdmin (a : AuthService) (req : IsAdminRequest) (w : World) :
    Except Status IsAdminResponse × World :=
  match validateIsAdmin req with
  | some _ => (.error ⟨.Internal, "internal error"⟩, w)
  | none =>
    match a.IsAdmin req.UserId req.AppId w with
    | ((_, some err), w) => (.error (ResponseError err), w)
    | ((isAdmin, none), w) => (.ok { IsAdmin := isAdmin }, w)

/-- The handler `serverAPI.RefreshToken`. -/
def serverAPI.RefreshToken (a : AuthService) (C : Crypto) (req : RefreshTokenRequest)
    (w : World) : Except Status RefreshTokenResponse × World :=
  match validateRefreshToken req with
  | some err => (.error err, w)
  | none =>
    match a.RefreshToken C req.Token req.AppId w with
    | ((_, some err), w) => (.error (ResponseError err), w)
    | ((tokens, none), w) =>
      (.ok { AccessToken := tokens.AccessToken, RefreshToken := tokens.RefreshToken }, w)

/-- The handler `serverAPI.CurrentUser`. -/
def serverAPI.CurrentUser (a : AuthService) (C : Crypto) (req : CurrentUserRequest)
    (w : World) : Except Status CurrentUserResponse × World :=
  match validateCurrentUser req with
  | some err => (.error err, w)
  | none =>
    match a.CurrentUser C req.Token req.AppId w with
    | ((_, some err), w) => (.error (ResponseError err), w)
    | ((user, none), w) => (.ok { UserId := user.ID, Email := user.Email, Name := user.Name }, w)

/-- The token `CreateToken` returns for these arguments at the instant `now`
(see `jwt.CreateToken_eq`). -/
def jwt.issued (C : Crypto) (now : Int) (userID appID : Int) (secret : String)
    (expires : Int) : TokenString :=
  .jws "HS512"
    [("app_id", .num appID), ("exp", .num (unix (now + expires))), ("user_id", .num userID)]
    (C.hmac "HS512" secret
      ("HS512",
        [("app_id", .num appID), ("exp", .num (unix (now + expires))), ("user_id", .num userID)]))

/-! ## Concrete inputs -/

/-- A stand-in for the primitives, to run the model on concrete inputs: the
"HMAC" writes the key in front of the method and the number of claims, the
"digest" writes the salt in front of the password. -/
def toyCrypto : Crypto where
  hmac := fun alg key input => key ++ "/" ++ alg ++ "/" ++ toString input.2.length
  bcrypt := fun _ salt password => salt ++ "/" ++ password

/-- A service with a one-hour access lifetime and a one-day refresh lifetime. -/
def svc : AuthService :=
  { tokenExpires := 3600000000000, refreshTokenExpires := 86400000000000 }

/-- An app with two different secrets. -/
def shop : App :=
  { ID := 1, Name := "shop", Secret := "access-key", RefreshSecret := "refresh-key" }

/-- A world with the app `shop` and no user yet. -/
def world0 : World := { apps := [shop] }

/-- A password of 73 bytes. -/
def longPassword : String := String.mk (List.replicate 73 'a')

/-- An app whose two secrets are the same text. -/
def twin : App :=
  { ID := 2, Name := "twin", Secret := "same-key", RefreshSecret := "same-key" }

/-- The user that `Register "a@b.com" "pw12345" "Alice"` stores in `world0`
under `toyCrypto`. -/
def alice : User :=
  { ID := 1, Name := "Alice", Email := "a@b.com",
    PassHash := .bcrypt 10 "salt" "salt/pw12345" }

/-- A world with the apps `shop` and `twin` and the user `alice`. -/
def world1 : World := { apps := [shop, twin], users := [alice], nextUserID := 2 }

/-- Whether the signing input of the token has different signatures under
`key1` and `key2` (true for text that is not a token). -/
def jwt.signDiffers (C : Crypto) (key1 key2 : String) (token : TokenString) : Bool :=
  match token with
  | .raw _ => true
  | .jws alg claims _ => C.hmac alg key1 (alg, claims) != C.hmac alg key2 (alg, claims)

/-- Whether the app lookup fails or the app found has an empty access or
refresh secret (a missing or misconfigured tenant). -/
def tenantUnusable (appID : Int) (w : World) : Bool :=
  match AppDB.GetAppByID appID w with
  | .error _ => true
  | .ok app => app.Secret == "" || app.RefreshSecret == ""

/-! ## Retrying (`internal/lib/database/repeateble/repeateble.go`) -/

/-- What a run of `DoWithTries` leaves behind: the error returned (`none` is
nil), the state the invocations of `fn` produced, how often `fn` was invoked
and how long the run slept in all. -/
structure Tries (σ : Type) where
  err : Option Err
  state : σ
  invocations : Nat
  slept : Int

/-- The loop `for range attemps` of `DoWithTries` with `n` iterations left and
`err` the error of the last invocation: a failing `fn` is followed by
`time.Sleep(delay)` (a non-positive delay does not sleep) and the next
iteration, a succeeding one returns nil at once; after the last iteration the
loop returns `err`. -/
def DoWithTries.loop {σ : Type} (fn : σ → Option Err × σ) (delay : Int) :
    Nat → Option Err → σ → Tries σ
  | 0, err, s => ⟨err, s, 0, 0⟩
  | n + 1, _, s =>
    match fn s with
    | (some e, s1) =>
      let r := DoWithTries.loop fn delay n (some e) s1
      { r with invocations := r.invocations + 1, slept := r.slept + max delay 0 }
    | (none, s1) => ⟨none, s1, 1, 0⟩

/-- `DoWithTries(fn, attemps, delay)`: `fn` is a function with effects on a
state; `for range attemps` runs `attemps` iterations, none when `attemps` is
negative. -/
def DoWithTries {σ : Type} (fn : σ → Option Err × σ) (attemps : Int) (delay : Int) (s : σ) :
    Tries σ :=
  if attemps = 0 then ⟨some (.other "attemps count can not be 0"), s, 0, 0⟩
  else DoWithTries.loop fn delay attemps.toNat none s

/-- The state before the invocation number `k` (counted from 0) of `fn` when
every earlier invocation is followed by another one. -/
def DoWithTries.stateAt {σ : Type} (fn : σ → Option Err × σ) (s : σ) : Nat → σ
  | 0 => s
  | k + 1 => DoWithTries.stateAt fn (fn s).2 k

/-- What the invocation number `k` (counted from 0) of `fn` returns. -/
def DoWithTries.resultAt {σ : Type} (fn : σ → Option Err × σ) (s : σ) (k : Nat) : Option Err :=
  (fn (DoWithTries.stateAt fn s k)).1

/-! ## More concrete inputs -/

/-- Whether a call of the trace hands a non-empty secret to the token codec
(true for the calls that take no secret). -/
def Call.secretNonEmpty : Call → Bool
  | .CreateToken _ _ secret _ => secret != ""
  | .DecodeToken _ secret => secret != ""
  | _ => true

/-- Whether the storage fails: `pool.Begin` or the query returns an error. -/
def World.storageDown (w : World) : Bool :=
  w.beginErr.isSome || w.queryErr.isSome

/-- The world `world1` with a database that refuses connections. -/
def worldDown : World := { world1 with beginErr := some "connection refused" }

/-- The world `world1` with `alice` as an admin of the app `shop`. -/
def world2 : World := { world1 with admins := [{ ID := 1, UserID := 1, AppID := 1 }] }

/-- A connection attempt that always fails; the state counts the attempts. -/
def alwaysFails (n : Nat) : Option Err × Nat :=
  (some (.other "connection refused"), n + 1)

/-- A connection attempt that fails twice and then succeeds. -/
def thirdTimeLucky (n : Nat) : Option Err × Nat :=
  if n < 2 then (some (.other "connection refused"), n + 1) else (none, n + 1)

/-! ## Auxiliary lemmas -/

@[simp]
theorem World.call_users (w : World) (c : Call) : (w.call c).users = w.users := rfl
@[simp]
theorem World.call_apps (w : World) (c : Call) : (w.call c).apps = w.apps := rfl
@[simp]
theorem World.call_admins (w : World) (c : Call) : (w.call c).admins = w.admins := rfl
@[simp]
theorem World.call_nextUserID (w : World) (c : Call) :
    (w.call c).nextUserID = w.nextUserID := rfl
@[simp]
theorem World.call_beginErr (w : World) (c : Call) : (w.call c).beginErr = w.beginErr := rfl
@[simp]
theorem World.call_queryErr (w : World) (c : Call) : (w.call c).queryErr = w.queryErr := rfl
@[simp]
theorem World.call_commitErr (w : World) (c : Call) :
    (w.call c).commitErr = w.commitErr := rfl
@[simp]
theorem World.call_now (w : World) (c : Call) : (w.call c).now = w.now := rfl
@[simp]
theorem World.call_salt (w : World) (c : Call) : (w.call c).salt = w.salt := rfl
@[simp]
theorem World.call_calls (w : World) (c : Call) : (w.call c).calls = w.calls ++ [c] := rfl

/-- The repositories do not read the trace. -/
@[simp]
theorem AuthDB.CheckUser_call (email : String) (w : World) (c : Call) :
    AuthDB.CheckUser email (w.call c) = AuthDB.CheckUser email w := rfl

@[simp]
theorem AuthDB.GetUserByEmail_call (email : String) (w : World) (c : Call) :
    AuthDB.GetUserByEmail email (w.call c) = AuthDB.GetUserByEmail email w := rfl

@[simp]
theorem AuthDB.GetUserByID_call (userID : Int) (w : World) (c : Call) :
    AuthDB.GetUserByID userID (w.call c) = AuthDB.GetUserByID userID w := rfl

@[simp]
theorem AuthDB.IsAdmin_call (userID appID : Int) (w : World) (c : Call) :
    AuthDB.IsAdmin userID appID (w.call c) = AuthDB.IsAdmin userID appID w := rfl

@[simp]
theorem AppDB.GetAppByID_call (appID : Int) (w : World) (c : Call) :
    AppDB.GetAppByID appID (w.call c) = AppDB.GetAppByID appID w := rfl

/-- The signing of an HS512 token does not fail: `CreateToken` returns `jwt.issued`. -/
theorem jwt.CreateToken_eq (C : Crypto) (now userID appID : Int) (secret : String)
    (expires : Int) :
    jwt.CreateToken C now userID appID secret expires =
      .ok (jwt.issued C now userID appID secret expires) := rfl

/-- A token made by `CreateToken` decodes under the same secret at every instant. -/
theorem jwt.DecodeToken_issued (C : Crypto) (now later userID appID : Int) (secret : String)
    (expires : Int) :
    jwt.DecodeToken C later (jwt.issued C now userID appID secret expires) secret =
      .ok { UserID := userID, AppID := appID, Expires := unix (now + expires) } := by
  simp [jwt.issued, jwt.DecodeToken, Token.Unmarshal, Token.setMember, JVal.toInt, jwt.Verify,
    jwt.isHMAC, jwt.Validate]

/-- A token made by `CreateToken` under one secret fails to decode under a
secret that signs its signing input differently. -/
theorem jwt.DecodeToken_issued_other (C : Crypto) (now later userID appID : Int)
    (secret other : String) (expires : Int)
    (hsep : jwt.signDiffers C secret other (jwt.issued C now userID appID secret expires) = true) :
    ∃ e, jwt.DecodeToken C later (jwt.issued C now userID appID secret expires) other =
      .error e := by
  have hne : ¬ C.hmac "HS512" other
      ("HS512",
        [("app_id", .num appID), ("exp", .num (unix (now + expires))), ("user_id", .num userID)]) =
      C.hmac "HS512" secret
      ("HS512",
        [("app_id", .num appID), ("exp", .num (unix (now + expires))), ("user_id", .num userID)]) := by
    intro h
    simp [jwt.signDiffers, jwt.issued, h] at hsep
  simp [jwt.issued, jwt.DecodeToken, Token.Unmarshal, Token.setMember, JVal.toInt, jwt.Verify,
    jwt.isHMAC, jwt.Validate, hne]

/-- What `Login` returns once the user is found, the password matches and the
app is usable. -/
theorem AuthService.Login_ok (a : AuthService) (C : Crypto) (email password : String)
    (appID : Int) (w : World) (user : User) (app : App)
    (hu : AuthDB.GetUserByEmail email w = .ok user)
    (hcmp : bcrypt.CompareHashAndPassword C user.PassHash password = none)
    (happ : AppDB.GetAppByID appID w = .ok app)
    (hsec : app.Secret ≠ "") (href : app.RefreshSecret ≠ "") :
    a.Login C email password appID w =
      ((⟨jwt.issued C w.now user.ID app.ID app.Secret a.tokenExpires,
          jwt.issued C w.now user.ID app.ID app.RefreshSecret a.refreshTokenExpires⟩, none),
        ((((w.call (.GetUserByEmail email)).call
          (.CompareHashAndPassword user.PassHash password)).call (.GetAppByID appID)).call
          (.CreateToken user.ID app.ID app.Secret a.tokenExpires)).call
          (.CreateToken user.ID app.ID app.RefreshSecret a.refreshTokenExpires)) := by
  simp [AuthService.Login, hu, hcmp, happ, hsec, href, jwt.CreateToken_eq]

/-- What `RefreshToken` returns once the app is usable and the token decodes. -/
theorem AuthService.RefreshToken_ok (a : AuthService) (C : Crypto) (token : TokenString)
    (appID : Int) (w : World) (app : App) (decodeToken : Token)
    (happ : AppDB.GetAppByID appID w = .ok app)
    (hsec : app.Secret ≠ "") (href : app.RefreshSecret ≠ "")
    (hdec : jwt.DecodeToken C w.now token app.RefreshSecret = .ok decodeToken) :
    a.RefreshToken C token appID w =
      ((⟨jwt.issued C w.now decodeToken.UserID app.ID app.Secret a.tokenExpires,
          jwt.issued C w.now decodeToken.UserID app.ID app.RefreshSecret
            a.refreshTokenExpires⟩, none),
        (((w.call (.GetAppByID appID)).call (.DecodeToken token app.RefreshSecret)).call
          (.CreateToken decodeToken.UserID app.ID app.Secret a.tokenExpires)).call
          (.CreateToken decodeToken.UserID app.ID app.RefreshSecret a.refreshTokenExpires)) := by
  simp [AuthService.RefreshToken, happ, hsec, href, hdec, jwt.CreateToken_eq]

/-- A successful `Login` found a user and a usable app and returns the two
tokens `CreateToken` made for them. -/
theorem AuthService.Login_success (a : AuthService) (C : Crypto) (email password : String)
    (appID : Int) (w : World) (pair : TokensPair)
    (h : (a.Login C email password appID w).1 = (pair, none)) :
    ∃ user app, AuthDB.GetUserByEmail email w = .ok user ∧
      bcrypt.CompareHashAndPassword C user.PassHash password = none ∧
      AppDB.GetAppByID appID w = .ok app ∧ app.Secret ≠ "" ∧ app.RefreshSecret ≠ "" ∧
      pair = ⟨jwt.issued C w.now user.ID app.ID app.Secret a.tokenExpires,
        jwt.issued C w.now user.ID app.ID app.RefreshSecret a.refreshTokenExpires⟩ := by
  cases hu : AuthDB.GetUserByEmail email w with
  | error e => simp [AuthService.Login, hu] at h
  | ok user =>
    cases hcmp : bcrypt.CompareHashAndPassword C user.PassHash password with
    | some e => simp [AuthService.Login, hu, hcmp] at h
    | none =>
      cases happ : AppDB.GetAppByID appID w with
      | error e => simp [AuthService.Login, hu, hcmp, happ] at h
      | ok app =>
        by_cases hs : app.Secret = "" ∨ app.RefreshSecret = ""
        · simp [AuthService.Login, hu, hcmp, happ, hs] at h
        · have hs1 : app.Secret ≠ "" := fun h => hs (Or.inl h)
          have hs2 : app.RefreshSecret ≠ "" := fun h => hs (Or.inr h)
          rw [AuthService.Login_ok a C email password appID w user app hu hcmp happ hs1 hs2] at h
          simp at h
          exact ⟨user, app, rfl, hcmp, rfl, hs1, hs2, h.symm⟩

/-- A successful `RefreshToken` found a usable app, decoded the token under its
refresh secret and returns the two tokens `CreateToken` made. -/
theorem AuthService.RefreshToken_success (a : AuthService) (C : Crypto) (token : TokenString)
    (appID : Int) (w : World) (pair : TokensPair)
    (h : (a.RefreshToken C token appID w).1 = (pair, none)) :
    ∃ app decodeToken, AppDB.GetAppByID appID w = .ok app ∧ app.Secret ≠ "" ∧
      app.RefreshSecret ≠ "" ∧
      jwt.DecodeToken C w.now token app.RefreshSecret = .ok decodeToken ∧
      pair = ⟨jwt.issued C w.now decodeToken.UserID app.ID app.Secret a.tokenExpires,
        jwt.issued C w.now decodeToken.UserID app.ID app.RefreshSecret
          a.refreshTokenExpires⟩ := by
  cases happ : AppDB.GetAppByID appID w with
  | error e => simp [AuthService.RefreshToken, happ] at h
  | ok app =>
    by_cases hs : app.Secret = "" ∨ app.RefreshSecret = ""
    · simp [AuthService.RefreshToken, happ, hs] at h
    · have hs1 : app.Secret ≠ "" := fun h => hs (Or.inl h)
      have hs2 : app.RefreshSecret ≠ "" := fun h => hs (Or.inr h)
      cases hdec : jwt.DecodeToken C w.now token app.RefreshSecret with
      | error e => simp [AuthService.RefreshToken, happ, hs1, hs2, hdec] at h
      | ok decodeToken =>
        rw [AuthService.RefreshToken_ok a C token appID w app decodeToken happ hs1 hs2 hdec] at h
        simp at h
        exact ⟨app, decodeToken, rfl, hs1, hs2, hdec, h.symm⟩

/-- No row of `public.user` has the email. -/
theorem AuthDB.find_email_none (email : String) (w : World)
    (hnew : ∀ u ∈ w.users, u.Email ≠ email) :
    w.users.find? (fun u => u.Email == email) = none := by
  rw [List.find?_eq_none]
  intro u hu
  simpa using hnew u hu

/-- What `Register` returns for a new email and a password bcrypt accepts when
the storage and the random source work. -/
theorem AuthService.Register_ok (a : AuthService) (C : Crypto) (email password name : String)
    (w : World) (s : String)
    (hpw : password.utf8ByteSize ≤ 72)
    (hb : w.beginErr = none) (hq : w.queryErr = none) (hc : w.commitErr = none)
    (hs : w.salt = some s)
    (hnew : ∀ u ∈ w.users, u.Email ≠ email) :
    a.Register C email password name w =
      ((w.nextUserID, none),
        { (((w.call (.CheckUser email)).call (.GenerateFromPassword password)).call
            (.CreateUser ⟨0, name, email, .bcrypt 10 s (C.bcrypt 10 s password)⟩)) with
          users := w.users ++ [⟨w.nextUserID, name, email, .bcrypt 10 s (C.bcrypt 10 s password)⟩]
          nextUserID := w.nextUserID + 1 }) := by
  have hfind := AuthDB.find_email_none email w hnew
  have hany : uniqueEmailViolated email w.users = false := by
    simpa [uniqueEmailViolated, List.any_eq_false] using hnew
  have hlen : ¬ password.utf8ByteSize > 72 := by omega
  simp [AuthService.Register, AuthDB.CheckUser, AuthDB.CreateUser,
    bcrypt.GenerateFromPassword, bcrypt.DefaultCost, hb, hq, hc, hs, hfind, hany, hlen]

/-- An unusable tenant: what `GetAppByID` and the check of the secrets give. -/
theorem tenantUnusable_iff (appID : Int) (w : World) :
    tenantUnusable appID w = true ↔
      (∃ e, AppDB.GetAppByID appID w = .error e) ∨
      (∃ app, AppDB.GetAppByID appID w = .ok app ∧ (app.Secret = "" ∨ app.RefreshSecret = "")) := by
  unfold tenantUnusable
  cases h : AppDB.GetAppByID appID w <;> simp

/-- When the storage works and a row has the email, `CheckUser` reports true. -/
theorem AuthDB.CheckUser_registered (email : String) (w : World)
    (hb : w.beginErr = none) (hq : w.queryErr = none)
    (hreg : ∃ u ∈ w.users, u.Email = email) :
    AuthDB.CheckUser email w = .ok true := by
  obtain ⟨u, hu, he⟩ := hreg
  have hsome : (w.users.find? (fun u => u.Email == email)).isSome := by
    rw [List.find?_isSome]
    exact ⟨u, hu, by simp [he]⟩
  cases hf : w.users.find? (fun u => u.Email == email) with
  | none => simp [hf] at hsome
  | some v => simp [AuthDB.CheckUser, hb, hq, hf]

/-- The app `GetAppByID` returns has the id that was asked for. -/
theorem AppDB.GetAppByID_id (appID : Int) (w : World) (app : App)
    (h : AppDB.GetAppByID appID w = .ok app) : app.ID = appID := by
  unfold AppDB.GetAppByID at h
  cases hb : w.beginErr with
  | some e => simp [hb] at h
  | none =>
    cases hq : w.queryErr with
    | some e => simp [hb, hq] at h
    | none =>
      cases hf : w.apps.find? (fun r => r.ID == appID) with
      | none => simp [hb, hq, hf] at h
      | some r =>
        simp [hb, hq, hf] at h
        subst h
        simpa using List.find?_some hf

/-- When the storage is down every repository read fails with an error that is
none of the four sentinels. -/
theorem AuthDB.GetUserByEmail_down (email : String) (w : World)
    (h : w.storageDown = true) : ∃ msg, AuthDB.GetUserByEmail email w = .error (.other msg) := by
  unfold World.storageDown at h
  unfold AuthDB.GetUserByEmail
  cases hb : w.beginErr with
  | some e => exact ⟨e, rfl⟩
  | none =>
    cases hq : w.queryErr with
    | some e => exact ⟨e, rfl⟩
    | none => simp [hb, hq] at h

/-- `CheckUser` fails when the storage is down. -/
theorem AuthDB.CheckUser_down (email : String) (w : World)
    (h : w.storageDown = true) : ∃ msg, AuthDB.CheckUser email w = .error (.other msg) := by
  unfold World.storageDown at h
  unfold AuthDB.CheckUser
  cases hb : w.beginErr with
  | some e => exact ⟨e, rfl⟩
  | none =>
    cases hq : w.queryErr with
    | some e => exact ⟨e, rfl⟩
    | none => simp [hb, hq] at h

/-- The repository's `IsAdmin` fails when the storage is down. -/
theorem AuthDB.IsAdmin_down (userID appID : Int) (w : World)
    (h : w.storageDown = true) : ∃ msg, AuthDB.IsAdmin userID appID w = .error (.other msg) := by
  unfold World.storageDown at h
  unfold AuthDB.IsAdmin
  cases hb : w.beginErr with
  | some e => exact ⟨e, rfl⟩
  | none =>
    cases hq : w.queryErr with
    | some e => exact ⟨e, rfl⟩
    | none => simp [hb, hq] at h

/-- `GetAppByID` fails when the storage is down. -/
theorem AppDB.GetAppByID_down (appID : Int) (w : World)
    (h : w.storageDown = true) : ∃ msg, AppDB.GetAppByID appID w = .error (.other msg) := by
  unfold World.storageDown at h
  unfold AppDB.GetAppByID
  cases hb : w.beginErr with
  | some e => exact ⟨e, rfl⟩
  | none =>
    cases hq : w.queryErr with
    | some e => exact ⟨e, rfl⟩
    | none => simp [hb, hq] at h

/-- What `CurrentUser` returns once the app is usable, the token decodes and
the user is found. -/
theorem AuthService.CurrentUser_ok (a : AuthService) (C : Crypto) (token : TokenString)
    (appID : Int) (w : World) (app : App) (decodeToken : Token) (user : User)
    (happ : AppDB.GetAppByID appID w = .ok app)
    (hsec : app.Secret ≠ "") (href : app.RefreshSecret ≠ "")
    (hdec : jwt.DecodeToken C w.now token app.Secret = .ok decodeToken)
    (hu : AuthDB.GetUserByID decodeToken.UserID w = .ok user) :
    a.CurrentUser C token appID w =
      ((⟨user.ID, user.Name, user.Email⟩, none),
        ((w.call (.GetAppByID appID)).call (.DecodeToken token app.Secret)).call
          (.GetUserByID decodeToken.UserID)) := by
  simp [AuthService.CurrentUser, happ, hsec, href, hdec, hu]

/-- Every error `Register` returns is `ErrUserAlreadyExist` or an error that
is none of the sentinels (from the storage or from bcrypt). -/
theorem AuthService.Register_error (a : AuthService) (C : Crypto) (email password name : String)
    (w : World) (err : Err) (h : (a.Register C email password name w).1.2 = some err) :
    err = .ErrUserAlreadyExist ∨ ∃ msg, err = .other msg := by
  unfold AuthService.Register AuthDB.CheckUser AuthDB.CreateUser bcrypt.GenerateFromPassword at h
  simp only [World.call_beginErr, World.call_queryErr, World.call_commitErr, World.call_users,
    World.call_salt, World.call_nextUserID] at h
  cases hb : w.beginErr <;> cases hq : w.queryErr <;> cases hc : w.commitErr <;>
    cases hs : w.salt <;>
    cases hf : w.users.find? (fun u => u.Email == email) <;>
    cases hu : uniqueEmailViolated email w.users <;>
    by_cases hl : password.utf8ByteSize > 72 <;>
    simp [hb, hq, hc, hs, hf, hu, hl] at h <;>
    first
      | exact Or.inl h.symm
      | exact Or.inr ⟨_, h.symm⟩

/-- The loop of `DoWithTries` with at least one iteration left: `fn` is
invoked at least once and at most as often as iterations are left; the error
returned is what the last invocation returned; every earlier invocation
failed; when the last invocation failed too, every iteration was used. -/
theorem DoWithTries.loop_succ {σ : Type} (fn : σ → Option Err × σ) (delay : Int) (n : Nat) :
    ∀ (err : Option Err) (s : σ),
      1 ≤ (DoWithTries.loop fn delay (n + 1) err s).invocations ∧
      (DoWithTries.loop fn delay (n + 1) err s).invocations ≤ n + 1 ∧
      (DoWithTries.loop fn delay (n + 1) err s).err =
        DoWithTries.resultAt fn s ((DoWithTries.loop fn delay (n + 1) err s).invocations - 1) ∧
      (∀ k, k + 1 < (DoWithTries.loop fn delay (n + 1) err s).invocations →
        DoWithTries.resultAt fn s k ≠ none) ∧
      ((DoWithTries.loop fn delay (n + 1) err s).err ≠ none →
        (DoWithTries.loop fn delay (n + 1) err s).invocations = n + 1) ∧
      (DoWithTries.loop fn delay (n + 1) err s).state =
        DoWithTries.stateAt fn s (DoWithTries.loop fn delay (n + 1) err s).invocations := by
  induction n with
  | zero =>
    intro err s
    rcases hfn : fn s with ⟨_ | e, s1⟩ <;>
      simp [DoWithTries.loop, DoWithTries.resultAt, DoWithTries.stateAt, hfn]
  | succ n ih =>
    intro err s
    rcases hfn : fn s with ⟨_ | e, s1⟩
    · simp [DoWithTries.loop, DoWithTries.resultAt, DoWithTries.stateAt, hfn]
    · obtain ⟨h1, h2, h3, h4, h5, h6⟩ := ih (some e) s1
      have hloop : DoWithTries.loop fn delay (n + 1 + 1) err s =
          { DoWithTries.loop fn delay (n + 1) (some e) s1 with
            invocations := (DoWithTries.loop fn delay (n + 1) (some e) s1).invocations + 1
            slept := (DoWithTries.loop fn delay (n + 1) (some e) s1).slept + max delay 0 } := by
        rw [DoWithTries.loop]
        simp [hfn]
      rw [hloop]
      have hres : ∀ k, DoWithTries.resultAt fn s (k + 1) = DoWithTries.resultAt fn s1 k := by
        intro k
        simp [DoWithTries.resultAt, DoWithTries.stateAt, hfn]
      have hst : ∀ k, DoWithTries.stateAt fn s (k + 1) = DoWithTries.stateAt fn s1 k := by
        intro k
        simp [DoWithTries.stateAt, hfn]
      refine ⟨by simp, by simpa using h2, ?_, ?_, ?_, ?_⟩
      · simp only [Nat.add_sub_cancel]
        obtain ⟨m, hm⟩ : ∃ m, (DoWithTries.loop fn delay (n + 1) (some e) s1).invocations = m + 1 :=
          ⟨_, (Nat.sub_add_cancel h1).symm⟩
        rw [hm, hres, h3, hm]
        simp
      · intro k hk
        cases k with
        | zero => simp [DoWithTries.resultAt, DoWithTries.stateAt, hfn]
        | succ k =>
          rw [hres]
          exact h4 k (by simpa using hk)
      · intro hne
        simpa using h5 hne
      · simp only []
        rw [hst, h6]

/-! ## The claims -/

/-- C1: `ResponseError` implements the fixed status table: InvalidArgument
for `ErrInvPassOrEmail`, AlreadyExists for `ErrUserAlreadyExist`,
InvalidArgument for `ErrInvalidData`, Unauthenticated for `ErrUnauthorized`
(each with the text of the sentinel), and Internal "internal error" for every
other error value. -/
theorem C1_ResponseError_table (e : Err) :
    (e = .ErrInvPassOrEmail →
      ResponseError e = ⟨.InvalidArgument, "invalid password or email"⟩) ∧
    (e = .ErrUserAlreadyExist →
      ResponseError e = ⟨.AlreadyExists, "user already registered"⟩) ∧
    (e = .ErrInvalidData → ResponseError e = ⟨.InvalidArgument, "invalid data"⟩) ∧
    (e = .ErrUnauthorized → ResponseError e = ⟨.Unauthenticated, "unauthorized"⟩) ∧
    (e ≠ .ErrInvPassOrEmail → e ≠ .ErrUserAlreadyExist → e ≠ .ErrInvalidData →
      e ≠ .ErrUnauthorized → ResponseError e = ⟨.Internal, "internal error"⟩) := by
  cases e <;> simp [ResponseError, Err.Error]

/-- C2: the handler `IsAdmin` answers a request with a missing field (user id
0 or app id 0) with the status Internal "internal error" and not with
InvalidArgument, here at the request (UserId 0, AppId 1) and for every such
request; the four other handlers answer a request with a missing field with
the InvalidArgument status of their validator, without calling the service. -/
theorem C2_IsAdmin_missing_field_is_Internal :
    serverAPI.IsAdmin svc ⟨0, 1⟩ {} = (.error ⟨.Internal, "internal error"⟩, {}) ∧
    (∀ (a : AuthService) (req : IsAdminRequest) (w : World),
      req.UserId = 0 ∨ req.AppId = 0 →
        serverAPI.IsAdmin a req w = (.error ⟨.Internal, "internal error"⟩, w)) ∧
    (∀ (a : AuthService) (C : Crypto) (req : LoginRequest) (w : World),
      req.Email = "" ∨ req.Password = "" ∨ req.AppId = 0 →
        ∃ msg, serverAPI.Login a C req w = (.error ⟨.InvalidArgument, msg⟩, w)) ∧
    (∀ (a : AuthService) (C : Crypto) (req : RegisterRequest) (w : World),
      req.Email = "" ∨ req.Password = "" ∨ req.Name = "" →
        ∃ msg, serverAPI.Register a C req w = (.error ⟨.InvalidArgument, msg⟩, w)) ∧
    (∀ (a : AuthService) (C : Crypto) (req : RefreshTokenRequest) (w : World),
      req.Token = .raw "" ∨ req.AppId = 0 →
        ∃ msg, serverAPI.RefreshToken a C req w = (.error ⟨.InvalidArgument, msg⟩, w)) ∧
    (∀ (a : AuthService) (C : Crypto) (req : CurrentUserRequest) (w : World),
      req.Token = .raw "" ∨ req.AppId = 0 →
        ∃ msg, serverAPI.CurrentUser a C req w = (.error ⟨.InvalidArgument, msg⟩, w)) := by
  refine ⟨rfl, ?_, ?_, ?_, ?_, ?_⟩
  · intro a req w h
    unfold serverAPI.IsAdmin validateIsAdmin emptyValue
    rcases h with h | h
    · simp [h]
    · by_cases h1 : req.UserId = 0 <;> simp [h, h1]
  · intro a C req w h
    unfold serverAPI.Login validateLogin emptyValue
    by_cases h1 : req.Email = ""
    · exact ⟨"empty email", by simp [h1]⟩
    · by_cases h2 : req.Password = ""
      · exact ⟨"empty password", by simp [h1, h2]⟩
      · have h3 : req.AppId = 0 := by tauto
        exact ⟨"empty app id", by simp [h1, h2, h3]⟩
  · intro a C req w h
    unfold serverAPI.Register validateRegister
    by_cases h1 : req.Email = ""
    · exact ⟨"empty email", by simp [h1]⟩
    · by_cases h2 : req.Password = ""
      · exact ⟨"empty password", by simp [h1, h2]⟩
      · have h3 : req.Name = "" := by tauto
        exact ⟨"empty name", by simp [h1, h2, h3]⟩
  · intro a C req w h
    unfold serverAPI.RefreshToken validateRefreshToken emptyValue
    by_cases h1 : req.Token = .raw ""
    · exact ⟨"empty token", by simp [h1]⟩
    · have h3 : req.AppId = 0 := by tauto
      exact ⟨"empty app id", by simp [h1, h3]⟩
  · intro a C req w h
    unfold serverAPI.CurrentUser validateCurrentUser emptyValue
    by_cases h1 : req.Token = .raw ""
    · exact ⟨"empty token", by simp [h1]⟩
    · have h3 : req.AppId = 0 := by tauto
      exact ⟨"empty app id", by simp [h1, h3]⟩

/-- C3 (amended): for an email that is not registered yet, a password of at
most 72 bytes (what bcrypt accepts), a working storage and random source, and an
app of the table `app` with both secrets non-empty, `Register` succeeds with
some user id, and a `Login` at any later instant `t` with the same email and
password succeeds and returns an access token that decodes under the access
secret and a refresh token that decodes under the refresh secret, both with
`UserID` equal to the id `Register` returned. -/
theorem C3_register_then_login (a : AuthService) (C : Crypto) (email password name : String)
    (appID : Int) (app : App) (w : World) (s : String)
    (hpw : password.utf8ByteSize ≤ 72)
    (hb : w.beginErr = none) (hq : w.queryErr = none) (hc : w.commitErr = none)
    (hs : w.salt = some s)
    (hnew : ∀ u ∈ w.users, u.Email ≠ email)
    (happ : w.apps.find? (fun r => r.ID == appID) = some app)
    (hsec : app.Secret ≠ "") (href : app.RefreshSecret ≠ "") :
    ∃ userID, (a.Register C email password name w).1 = (userID, none) ∧
      ∀ t : Int, ∃ access refresh,
        (a.Login C email password appID
          { (a.Register C email password name w).2 with now := t }).1 =
            (⟨access, refresh⟩, none) ∧
        (∃ claims, jwt.DecodeToken C t access app.Secret = .ok claims ∧
          claims.UserID = userID) ∧
        (∃ claims, jwt.DecodeToken C t refresh app.RefreshSecret = .ok claims ∧
          claims.UserID = userID) := by
  have hfind := AuthDB.find_email_none email w hnew
  rw [AuthService.Register_ok a C email password name w s hpw hb hq hc hs hnew]
  refine ⟨w.nextUserID, rfl, ?_⟩
  intro t
  have hu : AuthDB.GetUserByEmail email
      { ({ (((w.call (.CheckUser email)).call (.GenerateFromPassword password)).call
            (.CreateUser ⟨0, name, email, .bcrypt 10 s (C.bcrypt 10 s password)⟩)) with
          users := w.users ++ [⟨w.nextUserID, name, email, .bcrypt 10 s (C.bcrypt 10 s password)⟩]
          nextUserID := w.nextUserID + 1 } : World) with now := t } =
      .ok ⟨w.nextUserID, name, email, .bcrypt 10 s (C.bcrypt 10 s password)⟩ := by
    simp [AuthDB.GetUserByEmail, hb, hq, hfind]
  have hlogin := AuthService.Login_ok a C email password appID _ _ app hu
    (by simp [bcrypt.CompareHashAndPassword]) (by simp [AppDB.GetAppByID, hb, hq, happ])
    hsec href
  exact ⟨_, _, congrArg Prod.fst hlogin, ⟨_, jwt.DecodeToken_issued C _ t _ _ _ _, rfl⟩,
    ⟨_, jwt.DecodeToken_issued C _ t _ _ _ _, rfl⟩⟩

/-- C3 (witness): the amended claim at `Register "a@b.com" "pw12345" "Alice"`
in `world0`, then `Login` for the app `shop`. -/
theorem C3_register_then_login_witness :
    "pw12345".utf8ByteSize ≤ 72 ∧ (∀ u ∈ world0.users, u.Email ≠ "a@b.com") ∧
    world0.apps.find? (fun r => r.ID == 1) = some shop ∧
    ∃ userID, (svc.Register toyCrypto "a@b.com" "pw12345" "Alice" world0).1 = (userID, none) ∧
      ∀ t : Int, ∃ access refresh,
        (svc.Login toyCrypto "a@b.com" "pw12345" 1
          { (svc.Register toyCrypto "a@b.com" "pw12345" "Alice" world0).2 with now := t }).1 =
            (⟨access, refresh⟩, none) ∧
        (∃ claims, jwt.DecodeToken toyCrypto t access shop.Secret = .ok claims ∧
          claims.UserID = userID) ∧
        (∃ claims, jwt.DecodeToken toyCrypto t refresh shop.RefreshSecret = .ok claims ∧
          claims.UserID = userID) :=
  ⟨by decide, by simp [world0], by decide,
    C3_register_then_login svc toyCrypto "a@b.com" "pw12345" "Alice" 1 shop world0 "salt"
      (by decide) rfl rfl rfl rfl (by simp [world0]) (by decide) (by decide) (by decide)⟩

/-- C3 (counterexample): a non-empty password of 73 bytes passes
`validateRegister`, the email is not registered and the app has both secrets,
yet `Register` fails with bcrypt's "password length exceeds 72 bytes", which
the handler reports as Internal. -/
theorem C3_counterexample_long_password :
    longPassword ≠ "" ∧ (∀ u ∈ world0.users, u.Email ≠ "a@b.com") ∧
    world0.apps.find? (fun r => r.ID == 1) = some shop ∧
    shop.Secret ≠ "" ∧ shop.RefreshSecret ≠ "" ∧
    validateRegister ⟨"a@b.com", longPassword, "Alice"⟩ = none ∧
    (∀ C : Crypto, (svc.Register C "a@b.com" longPassword "Alice" world0).1 =
      (0, some (.other "bcrypt: password length exceeds 72 bytes"))) ∧
    (∀ C : Crypto, (serverAPI.Register svc C ⟨"a@b.com", longPassword, "Alice"⟩ world0).1 =
      .error ⟨.Internal, "internal error"⟩) := by
  have hlen : longPassword.utf8ByteSize > 72 := by decide
  have hreg : ∀ C : Crypto, svc.Register C "a@b.com" longPassword "Alice" world0 =
      ((0, some (.other "bcrypt: password length exceeds 72 bytes")),
        (world0.call (.CheckUser "a@b.com")).call (.GenerateFromPassword longPassword)) := by
    intro C
    simp [AuthService.Register, AuthDB.CheckUser, bcrypt.GenerateFromPassword, world0, hlen]
  refine ⟨by decide, by simp [world0], by decide, by decide, by decide, by decide, ?_, ?_⟩
  · intro C
    rw [hreg C]
  · intro C
    have hv : validateRegister ⟨"a@b.com", longPassword, "Alice"⟩ = none := by decide
    simp [serverAPI.Register, hv, hreg C, ResponseError]

/-- C4: a token `CreateToken` made keeps decoding under its secret after its
lifetime: the token made at instant 0 with a one-hour lifetime decodes two
hours later, every token decodes at every later instant, and so `RefreshToken`
accepts a refresh token, and `CurrentUser` an access token, ten days after its
lifetime began.  The member `exp` is stored in `Token.Expires`,
`RegisteredClaims.ExpiresAt` stays nil, and the validator reads only
`ExpiresAt`. -/
theorem C4_expired_token_still_decodes :
    (jwt.CreateToken toyCrypto 0 7 1 "access-key" 3600000000000 =
        .ok (jwt.issued toyCrypto 0 7 1 "access-key" 3600000000000) ∧
      jwt.DecodeToken toyCrypto 7200000000000
        (jwt.issued toyCrypto 0 7 1 "access-key" 3600000000000) "access-key" =
        .ok { UserID := 7, AppID := 1, Expires := 3600 }) ∧
    (∀ (C : Crypto) (now later userID appID : Int) (secret : String) (expires : Int),
      now + expires < later →
        ∃ tok, jwt.CreateToken C now userID appID secret expires = .ok tok ∧
          jwt.DecodeToken C later tok secret =
            .ok { UserID := userID, AppID := appID, Expires := unix (now + expires) }) ∧
    (svc.RefreshToken toyCrypto (jwt.issued toyCrypto 0 1 1 "refresh-key" 86400000000000) 1
      { world1 with now := 864000000000000 }).1.2 = none ∧
    (svc.CurrentUser toyCrypto (jwt.issued toyCrypto 0 1 1 "access-key" 3600000000000) 1
      { world1 with now := 864000000000000 }).1 = (⟨1, "Alice", "a@b.com"⟩, none) := by
  refine ⟨⟨rfl, ?_⟩, ?_, ?_, by decide⟩
  · rw [jwt.DecodeToken_issued]
    rfl
  · intro C now later userID appID secret expires _
    exact ⟨_, jwt.CreateToken_eq C now userID appID secret expires,
      jwt.DecodeToken_issued C now later userID appID secret expires⟩
  · rw [AuthService.RefreshToken_ok svc toyCrypto _ 1 _ shop _ (by rfl) (by decide) (by decide)
      (jwt.DecodeToken_issued toyCrypto 0 _ 1 1 "refresh-key" 86400000000000)]

/-- C5 (amended): when the tenant is unusable (the app lookup fails, or the
app has an empty access or refresh secret), `RefreshToken` and `CurrentUser`
return `ErrInvalidData` with an empty result after the single call
`GetAppByID`: no user-repository call, no token decoding, no token creation,
whatever the token.  `Login` looks up the user and compares the password
first; once both succeed it returns `ErrInvalidData` with an empty pair after
the calls `GetUserByEmail`, `CompareHashAndPassword`, `GetAppByID`, creating no
token. -/
theorem C5_unusable_tenant (a : AuthService) (C : Crypto) (token : TokenString)
    (email password : String) (appID : Int) (w : World)
    (h : tenantUnusable appID w = true) :
    a.RefreshToken C token appID w =
      ((TokensPair.empty, some .ErrInvalidData), w.call (.GetAppByID appID)) ∧
    a.CurrentUser C token appID w =
      ((UserRead.empty, some .ErrInvalidData), w.call (.GetAppByID appID)) ∧
    (∀ user, AuthDB.GetUserByEmail email w = .ok user →
      bcrypt.CompareHashAndPassword C user.PassHash password = none →
      a.Login C email password appID w =
        ((TokensPair.empty, some .ErrInvalidData),
          ((w.call (.GetUserByEmail email)).call
            (.CompareHashAndPassword user.PassHash password)).call (.GetAppByID appID))) := by
  rw [tenantUnusable_iff] at h
  rcases h with ⟨e, he⟩ | ⟨app, happ, hs⟩
  · refine ⟨?_, ?_, ?_⟩
    · simp [AuthService.RefreshToken, he]
    · simp [AuthService.CurrentUser, he]
    · intro user hu hcmp
      simp [AuthService.Login, hu, hcmp, he]
  · refine ⟨?_, ?_, ?_⟩
    · simp [AuthService.RefreshToken, happ, hs]
    · simp [AuthService.CurrentUser, happ, hs]
    · intro user hu hcmp
      simp [AuthService.Login, hu, hcmp, happ, hs]

/-- C5 (witness): the amended claim in `world1` for the app id 9, which no app has. -/
theorem C5_unusable_tenant_witness :
    tenantUnusable 9 world1 = true ∧
    svc.RefreshToken toyCrypto (.raw "x.y.z") 9 world1 =
      ((TokensPair.empty, some .ErrInvalidData), world1.call (.GetAppByID 9)) ∧
    svc.CurrentUser toyCrypto (.raw "x.y.z") 9 world1 =
      ((UserRead.empty, some .ErrInvalidData), world1.call (.GetAppByID 9)) ∧
    (∀ user, AuthDB.GetUserByEmail "a@b.com" world1 = .ok user →
      bcrypt.CompareHashAndPassword toyCrypto user.PassHash "pw12345" = none →
      svc.Login toyCrypto "a@b.com" "pw12345" 9 world1 =
        ((TokensPair.empty, some .ErrInvalidData),
          ((world1.call (.GetUserByEmail "a@b.com")).call
            (.CompareHashAndPassword user.PassHash "pw12345")).call (.GetAppByID 9))) :=
  ⟨by decide, C5_unusable_tenant svc toyCrypto (.raw "x.y.z") "a@b.com" "pw12345" 9 world1
    (by decide)⟩

/-- C5 (counterexample): for the app id 9, which no app has, `Login` with an
unknown email returns `ErrInvPassOrEmail`, not `ErrInvalidData`; and `Login`
with the email and password of `alice` returns `ErrInvalidData` only after a
user-repository call and a password comparison. -/
theorem C5_counterexample_Login_credentials_first :
    tenantUnusable 9 world1 = true ∧
    (svc.Login toyCrypto "nobody@b.com" "pw12345" 9 world1).1 =
      (TokensPair.empty, some .ErrInvPassOrEmail) ∧
    (svc.Login toyCrypto "a@b.com" "pw12345" 9 world1).1 =
      (TokensPair.empty, some .ErrInvalidData) ∧
    (svc.Login toyCrypto "a@b.com" "pw12345" 9 world1).2.calls =
      [.GetUserByEmail "a@b.com", .CompareHashAndPassword alice.PassHash "pw12345",
        .GetAppByID 9] := by
  refine ⟨by decide, by decide, by decide, by decide⟩

/-- C6: `Login` with an email no row of the user table has, and `Login` with
a known email and a password that `CompareHashAndPassword` rejects for the
stored hash, return the same result, the empty `TokensPair` with the error
value `ErrInvPassOrEmail`, for every app id; the handler turns both into the
same status. -/
theorem C6_login_failures_identical (a : AuthService) (C : Crypto) (w : World)
    (email1 password1 email2 password2 : String) (appID1 appID2 : Int) (user : User)
    (hunknown : ∀ u ∈ w.users, u.Email ≠ email1)
    (hknown : AuthDB.GetUserByEmail email2 w = .ok user)
    (hwrong : bcrypt.CompareHashAndPassword C user.PassHash password2 ≠ none) :
    (a.Login C email1 password1 appID1 w).1 = (TokensPair.empty, some .ErrInvPassOrEmail) ∧
    (a.Login C email2 password2 appID2 w).1 = (TokensPair.empty, some .ErrInvPassOrEmail) ∧
    (a.Login C email1 password1 appID1 w).1 = (a.Login C email2 password2 appID2 w).1 ∧
    ResponseError .ErrInvPassOrEmail = ⟨.InvalidArgument, "invalid password or email"⟩ := by
  have hfind := AuthDB.find_email_none email1 w hunknown
  have h1 : (a.Login C email1 password1 appID1 w).1 =
      (TokensPair.empty, some .ErrInvPassOrEmail) := by
    have hget : ∃ e, AuthDB.GetUserByEmail email1 w = .error e := by
      unfold AuthDB.GetUserByEmail
      cases w.beginErr <;> cases w.queryErr <;> simp [hfind]
    obtain ⟨e, he⟩ := hget
    simp [AuthService.Login, he]
  have h2 : (a.Login C email2 password2 appID2 w).1 =
      (TokensPair.empty, some .ErrInvPassOrEmail) := by
    cases hcmp : bcrypt.CompareHashAndPassword C user.PassHash password2 with
    | none => exact absurd hcmp hwrong
    | some e => simp [AuthService.Login, hknown, hcmp]
  exact ⟨h1, h2, h1.trans h2.symm, rfl⟩

/-- C6 (witness): in `world1`, the unknown email "nobody@b.com" and the wrong
password "letmein" for the email of `alice`. -/
theorem C6_login_failures_identical_witness :
    (∀ u ∈ world1.users, u.Email ≠ "nobody@b.com") ∧
    AuthDB.GetUserByEmail "a@b.com" world1 = .ok alice ∧
    bcrypt.CompareHashAndPassword toyCrypto alice.PassHash "letmein" ≠ none ∧
    (svc.Login toyCrypto "nobody@b.com" "pw12345" 1 world1).1 =
      (TokensPair.empty, some .ErrInvPassOrEmail) ∧
    (svc.Login toyCrypto "a@b.com" "letmein" 2 world1).1 =
      (TokensPair.empty, some .ErrInvPassOrEmail) ∧
    (svc.Login toyCrypto "nobody@b.com" "pw12345" 1 world1).1 =
      (svc.Login toyCrypto "a@b.com" "letmein" 2 world1).1 ∧
    ResponseError .ErrInvPassOrEmail = ⟨.InvalidArgument, "invalid password or email"⟩ :=
  ⟨by decide, rfl, by decide,
    C6_login_failures_identical svc toyCrypto world1 "nobody@b.com" "pw12345" "a@b.com"
      "letmein" 1 2 alice (by decide) rfl (by decide)⟩

/-- C7 (amended): when the app's access and refresh secrets sign differently,
that is, the HS512 signature of the signing input of each token of the pair
under the access secret differs from the one under the refresh secret (as for
two different keys, short of a collision), then for the pair a successful
`Login` or `RefreshToken` returns, the access token fails `DecodeToken` under
the refresh secret and the refresh token fails `DecodeToken` under the access
secret, at every instant. -/
theorem C7_tokens_not_interchangeable (a : AuthService) (C : Crypto) (email password : String)
    (token : TokenString) (appID : Int) (w : World) (pair : TokensPair) (app : App)
    (later : Int)
    (h : (a.Login C email password appID w).1 = (pair, none) ∨
      (a.RefreshToken C token appID w).1 = (pair, none))
    (happ : AppDB.GetAppByID appID w = .ok app)
    (hacc : jwt.signDiffers C app.Secret app.RefreshSecret pair.AccessToken = true)
    (href : jwt.signDiffers C app.RefreshSecret app.Secret pair.RefreshToken = true) :
    (∃ e, jwt.DecodeToken C later pair.AccessToken app.RefreshSecret = .error e) ∧
    (∃ e, jwt.DecodeToken C later pair.RefreshToken app.Secret = .error e) := by
  rcases h with h | h
  · obtain ⟨user, app1, _, _, happ1, _, _, hpair⟩ :=
      AuthService.Login_success a C email password appID w pair h
    rw [happ] at happ1
    cases happ1
    subst hpair
    exact ⟨jwt.DecodeToken_issued_other C _ later _ _ _ _ _ hacc,
      jwt.DecodeToken_issued_other C _ later _ _ _ _ _ href⟩
  · obtain ⟨app1, decodeToken, happ1, _, _, _, hpair⟩ :=
      AuthService.RefreshToken_success a C token appID w pair h
    rw [happ] at happ1
    cases happ1
    subst hpair
    exact ⟨jwt.DecodeToken_issued_other C _ later _ _ _ _ _ hacc,
      jwt.DecodeToken_issued_other C _ later _ _ _ _ _ href⟩

/-- C7 (witness): the pair `Login` returns to `alice` for the app `shop`,
whose secrets differ. -/
theorem C7_tokens_not_interchangeable_witness :
    (svc.Login toyCrypto "a@b.com" "pw12345" 1 world1).1 =
      (⟨jwt.issued toyCrypto 0 1 1 "access-key" 3600000000000,
        jwt.issued toyCrypto 0 1 1 "refresh-key" 86400000000000⟩, none) ∧
    AppDB.GetAppByID 1 world1 = .ok shop ∧
    jwt.signDiffers toyCrypto shop.Secret shop.RefreshSecret
      (jwt.issued toyCrypto 0 1 1 "access-key" 3600000000000) = true ∧
    jwt.signDiffers toyCrypto shop.RefreshSecret shop.Secret
      (jwt.issued toyCrypto 0 1 1 "refresh-key" 86400000000000) = true ∧
    (∃ e, jwt.DecodeToken toyCrypto 5 (jwt.issued toyCrypto 0 1 1 "access-key" 3600000000000)
      "refresh-key" = .error e) ∧
    (∃ e, jwt.DecodeToken toyCrypto 5 (jwt.issued toyCrypto 0 1 1 "refresh-key" 86400000000000)
      "access-key" = .error e) :=
  ⟨by decide, rfl, by decide, by decide,
    C7_tokens_not_interchangeable svc toyCrypto "a@b.com" "pw12345" (.raw "") 1 world1
      ⟨jwt.issued toyCrypto 0 1 1 "access-key" 3600000000000,
        jwt.issued toyCrypto 0 1 1 "refresh-key" 86400000000000⟩ shop 5
      (Or.inl (by decide)) rfl (by decide) (by decide)⟩

/-- C7 (counterexample): the app `twin` has the same non-empty text as access
and as refresh secret; `Login` succeeds for it, and the access token decodes
under the refresh secret and the refresh token under the access secret. -/
theorem C7_counterexample_equal_secrets :
    twin.Secret ≠ "" ∧ twin.RefreshSecret ≠ "" ∧
    (svc.Login toyCrypto "a@b.com" "pw12345" 2 world1).1.2 = none ∧
    jwt.DecodeToken toyCrypto 0
      (svc.Login toyCrypto "a@b.com" "pw12345" 2 world1).1.1.AccessToken twin.RefreshSecret =
        .ok { UserID := 1, AppID := 2, Expires := 3600 } ∧
    jwt.DecodeToken toyCrypto 0
      (svc.Login toyCrypto "a@b.com" "pw12345" 2 world1).1.1.RefreshToken twin.Secret =
        .ok { UserID := 1, AppID := 2, Expires := 86400 } := by
  have hl : svc.Login toyCrypto "a@b.com" "pw12345" 2 world1 = _ :=
    AuthService.Login_ok svc toyCrypto "a@b.com" "pw12345" 2 world1 alice twin rfl (by decide)
      rfl (by decide) (by decide)
  rw [hl]
  refine ⟨by decide, by decide, rfl, ?_, ?_⟩
  · exact jwt.DecodeToken_issued toyCrypto _ 0 _ _ _ _
  · exact jwt.DecodeToken_issued toyCrypto _ 0 _ _ _ _

/-- C8: when `CheckUser` reports that the email exists, `Register` returns the
user id 0 with `ErrUserAlreadyExist`, which `ResponseError` maps to
AlreadyExists "user already registered"; the world is unchanged but for the
one call `CheckUser` in the trace: the user table is the same, the password is
not hashed and `CreateUser` is not called. -/
theorem C8_duplicate_registration (a : AuthService) (C : Crypto) (email password name : String)
    (w : World) (hexists : AuthDB.CheckUser email w = .ok true) :
    a.Register C email password name w =
      ((0, some .ErrUserAlreadyExist), w.call (.CheckUser email)) ∧
    (a.Register C email password name w).2.users = w.users ∧
    (a.Register C email password name w).2.calls = w.calls ++ [.CheckUser email] ∧
    ResponseError .ErrUserAlreadyExist = ⟨.AlreadyExists, "user already registered"⟩ := by
  have h : a.Register C email password name w =
      ((0, some .ErrUserAlreadyExist), w.call (.CheckUser email)) := by
    simp [AuthService.Register, hexists]
  rw [h]
  exact ⟨rfl, rfl, rfl, rfl⟩

/-- C8 (witness): registering the email of `alice` again in `world1`. -/
theorem C8_duplicate_registration_witness :
    AuthDB.CheckUser "a@b.com" world1 = .ok true ∧
    svc.Register toyCrypto "a@b.com" "other-password" "Alice" world1 =
      ((0, some .ErrUserAlreadyExist), world1.call (.CheckUser "a@b.com")) ∧
    (svc.Register toyCrypto "a@b.com" "other-password" "Alice" world1).2.users = world1.users ∧
    (svc.Register toyCrypto "a@b.com" "other-password" "Alice" world1).2.calls =
      world1.calls ++ [.CheckUser "a@b.com"] ∧
    ResponseError .ErrUserAlreadyExist = ⟨.AlreadyExists, "user already registered"⟩ :=
  ⟨rfl, C8_duplicate_registration svc toyCrypto "a@b.com" "other-password" "Alice" world1 rfl⟩

/-- C9: for an app that resolves with both secrets non-empty, `RefreshToken`
with a token that `DecodeToken` rejects under the app's refresh secret returns
the empty `TokensPair` with `ErrUnauthorized`; its calls are `GetAppByID` and
`DecodeToken` only, so `CreateToken` is never called. -/
theorem C9_refresh_rejects_invalid_token (a : AuthService) (C : Crypto) (token : TokenString)
    (appID : Int) (w : World) (app : App) (e : Err)
    (happ : AppDB.GetAppByID appID w = .ok app)
    (hsec : app.Secret ≠ "") (href : app.RefreshSecret ≠ "")
    (hbad : jwt.DecodeToken C w.now token app.RefreshSecret = .error e) :
    a.RefreshToken C token appID w =
      ((TokensPair.empty, some .ErrUnauthorized),
        (w.call (.GetAppByID appID)).call (.DecodeToken token app.RefreshSecret)) ∧
    (a.RefreshToken C token appID w).2.calls =
      w.calls ++ [.GetAppByID appID, .DecodeToken token app.RefreshSecret] := by
  have h : a.RefreshToken C token appID w =
      ((TokensPair.empty, some .ErrUnauthorized),
        (w.call (.GetAppByID appID)).call (.DecodeToken token app.RefreshSecret)) := by
    simp [AuthService.RefreshToken, happ, hsec, href, hbad]
  rw [h]
  exact ⟨rfl, by simp⟩

/-- C9 (witness): in `world1`, for the app `shop`, the refresh token of
`alice` with its signature replaced (tampered). -/
theorem C9_refresh_rejects_invalid_token_witness :
    AppDB.GetAppByID 1 world1 = .ok shop ∧
    jwt.DecodeToken toyCrypto world1.now
      (.jws "HS512" [("app_id", .num 1), ("exp", .num 86400), ("user_id", .num 1)] "forged")
      shop.RefreshSecret = .error (.other "failed to decode token: token signature is invalid") ∧
    svc.RefreshToken toyCrypto
      (.jws "HS512" [("app_id", .num 1), ("exp", .num 86400), ("user_id", .num 1)] "forged")
      1 world1 =
      ((TokensPair.empty, some .ErrUnauthorized),
        (world1.call (.GetAppByID 1)).call (.DecodeToken
          (.jws "HS512" [("app_id", .num 1), ("exp", .num 86400), ("user_id", .num 1)] "forged")
          shop.RefreshSecret)) ∧
    (svc.RefreshToken toyCrypto
      (.jws "HS512" [("app_id", .num 1), ("exp", .num 86400), ("user_id", .num 1)] "forged")
      1 world1).2.calls =
      world1.calls ++ [.GetAppByID 1, .DecodeToken
        (.jws "HS512" [("app_id", .num 1), ("exp", .num 86400), ("user_id", .num 1)] "forged")
        shop.RefreshSecret] :=
  ⟨rfl, rfl,
    C9_refresh_rejects_invalid_token svc toyCrypto _ 1 world1 shop
      (.other "failed to decode token: token signature is invalid") rfl (by decide) (by decide)
      rfl⟩

/-- C10 (amended): for a successful `Login` at the instant `w.now` followed by
a successful `RefreshToken` at the instant `w2.now` with the returned refresh
token and the same app id, the access token of the new pair differs from the
access token of the original pair whenever the two expiry seconds differ:
`unix (w2.now + tokenExpires) ≠ unix (w.now + tokenExpires)`. -/
theorem C10_refresh_rotates_access_token (a : AuthService) (C : Crypto) (email password : String)
    (appID : Int) (w w2 : World) (pair pair2 : TokensPair)
    (hlogin : (a.Login C email password appID w).1 = (pair, none))
    (hrefresh : (a.RefreshToken C pair.RefreshToken appID w2).1 = (pair2, none))
    (hclock : unix (w2.now + a.tokenExpires) ≠ unix (w.now + a.tokenExpires)) :
    pair2.AccessToken ≠ pair.AccessToken := by
  obtain ⟨user, app, _, _, _, _, _, hpair⟩ :=
    AuthService.Login_success a C email password appID w pair hlogin
  obtain ⟨app2, decodeToken, _, _, _, _, hpair2⟩ :=
    AuthService.RefreshToken_success a C pair.RefreshToken appID w2 pair2 hrefresh
  rw [hpair2, hpair]
  simp [jwt.issued]
  intro _ hexp
  exact absurd hexp hclock

/-- C10 (witness): `alice` logs in to `shop` at the instant 0 and refreshes
two seconds later. -/
theorem C10_refresh_rotates_access_token_witness :
    (svc.Login toyCrypto "a@b.com" "pw12345" 1 world1).1 =
      (⟨jwt.issued toyCrypto 0 1 1 "access-key" 3600000000000,
        jwt.issued toyCrypto 0 1 1 "refresh-key" 86400000000000⟩, none) ∧
    (svc.RefreshToken toyCrypto (jwt.issued toyCrypto 0 1 1 "refresh-key" 86400000000000) 1
      { (svc.Login toyCrypto "a@b.com" "pw12345" 1 world1).2 with now := 2000000000 }).1 =
      (⟨jwt.issued toyCrypto 2000000000 1 1 "access-key" 3600000000000,
        jwt.issued toyCrypto 2000000000 1 1 "refresh-key" 86400000000000⟩, none) ∧
    jwt.issued toyCrypto 2000000000 1 1 "access-key" 3600000000000 ≠
      jwt.issued toyCrypto 0 1 1 "access-key" 3600000000000 :=
  ⟨by decide, by decide,
    C10_refresh_rotates_access_token svc toyCrypto "a@b.com" "pw12345" 1 world1
      { (svc.Login toyCrypto "a@b.com" "pw12345" 1 world1).2 with now := 2000000000 }
      ⟨jwt.issued toyCrypto 0 1 1 "access-key" 3600000000000,
        jwt.issued toyCrypto 0 1 1 "refresh-key" 86400000000000⟩
      ⟨jwt.issued toyCrypto 2000000000 1 1 "access-key" 3600000000000,
        jwt.issued toyCrypto 2000000000 1 1 "refresh-key" 86400000000000⟩
      (by decide) (by decide) (by decide)⟩

/-- C10 (counterexample): `alice` logs in to `shop` and refreshes with the
returned refresh token within the same second (here 0.9 s later); both calls
succeed and the new access token is the original access token. -/
theorem C10_counterexample_same_second :
    (svc.Login toyCrypto "a@b.com" "pw12345" 1 world1).1.2 = none ∧
    (svc.RefreshToken toyCrypto
      (svc.Login toyCrypto "a@b.com" "pw12345" 1 world1).1.1.RefreshToken 1
      { (svc.Login toyCrypto "a@b.com" "pw12345" 1 world1).2 with now := 900000000 }).1.2 = none ∧
    (svc.RefreshToken toyCrypto
      (svc.Login toyCrypto "a@b.com" "pw12345" 1 world1).1.1.RefreshToken 1
      { (svc.Login toyCrypto "a@b.com" "pw12345" 1 world1).2 with now := 900000000 }).1.1.AccessToken =
      (svc.Login toyCrypto "a@b.com" "pw12345" 1 world1).1.1.AccessToken := by
  refine ⟨by decide, by decide, by decide⟩

/-- C11: on a successful `Login` at the instant `w.now`, the user was found by
the email and the app by the app id; the access token is the HS512 token with
the claims `app_id` = the app's id (the id asked for), `exp` =
`unix (w.now + tokenExpires)`, `user_id` = the user's id, signed with the
app's access secret; the refresh token has the same `user_id` and `app_id`,
`exp` = `unix (w.now + refreshTokenExpires)`, and is signed with the app's
refresh secret; decoding them under these secrets gives these claims. -/
theorem C11_login_claims (a : AuthService) (C : Crypto) (email password : String)
    (appID : Int) (w : World) (pair : TokensPair)
    (h : (a.Login C email password appID w).1 = (pair, none)) :
    ∃ user app, AuthDB.GetUserByEmail email w = .ok user ∧
      AppDB.GetAppByID appID w = .ok app ∧ app.ID = appID ∧
      pair.AccessToken =
        .jws "HS512"
          [("app_id", .num app.ID), ("exp", .num (unix (w.now + a.tokenExpires))),
            ("user_id", .num user.ID)]
          (C.hmac "HS512" app.Secret
            ("HS512",
              [("app_id", .num app.ID), ("exp", .num (unix (w.now + a.tokenExpires))),
                ("user_id", .num user.ID)])) ∧
      pair.RefreshToken =
        .jws "HS512"
          [("app_id", .num app.ID), ("exp", .num (unix (w.now + a.refreshTokenExpires))),
            ("user_id", .num user.ID)]
          (C.hmac "HS512" app.RefreshSecret
            ("HS512",
              [("app_id", .num app.ID), ("exp", .num (unix (w.now + a.refreshTokenExpires))),
                ("user_id", .num user.ID)])) ∧
      jwt.DecodeToken C w.now pair.AccessToken app.Secret =
        .ok { UserID := user.ID, AppID := appID, Expires := unix (w.now + a.tokenExpires) } ∧
      jwt.DecodeToken C w.now pair.RefreshToken app.RefreshSecret =
        .ok { UserID := user.ID, AppID := appID,
              Expires := unix (w.now + a.refreshTokenExpires) } := by
  obtain ⟨user, app, hu, _, happ, _, _, hpair⟩ :=
    AuthService.Login_success a C email password appID w pair h
  have hid := AppDB.GetAppByID_id appID w app happ
  subst hpair
  refine ⟨user, app, hu, happ, hid, rfl, rfl, ?_, ?_⟩
  · rw [← hid]
    exact jwt.DecodeToken_issued C _ _ _ _ _ _
  · rw [← hid]
    exact jwt.DecodeToken_issued C _ _ _ _ _ _

/-- C11 (witness): `alice` logs in to `shop` in `world1` at the instant 0. -/
theorem C11_login_claims_witness :
    (svc.Login toyCrypto "a@b.com" "pw12345" 1 world1).1 =
      (⟨.jws "HS512" [("app_id", .num 1), ("exp", .num 3600), ("user_id", .num 1)]
          "access-key/HS512/3",
        .jws "HS512" [("app_id", .num 1), ("exp", .num 86400), ("user_id", .num 1)]
          "refresh-key/HS512/3"⟩, none) ∧
    ∃ user app, AuthDB.GetUserByEmail "a@b.com" world1 = .ok user ∧
      AppDB.GetAppByID 1 world1 = .ok app ∧ app.ID = 1 ∧
      (TokenString.jws "HS512" [("app_id", .num 1), ("exp", .num 3600), ("user_id", .num 1)]
          "access-key/HS512/3") =
        .jws "HS512"
          [("app_id", .num app.ID), ("exp", .num (unix (world1.now + svc.tokenExpires))),
            ("user_id", .num user.ID)]
          (toyCrypto.hmac "HS512" app.Secret
            ("HS512",
              [("app_id", .num app.ID), ("exp", .num (unix (world1.now + svc.tokenExpires))),
                ("user_id", .num user.ID)])) ∧
      (TokenString.jws "HS512" [("app_id", .num 1), ("exp", .num 86400), ("user_id", .num 1)]
          "refresh-key/HS512/3") =
        .jws "HS512"
          [("app_id", .num app.ID),
            ("exp", .num (unix (world1.now + svc.refreshTokenExpires))),
            ("user_id", .num user.ID)]
          (toyCrypto.hmac "HS512" app.RefreshSecret
            ("HS512",
              [("app_id", .num app.ID),
                ("exp", .num (unix (world1.now + svc.refreshTokenExpires))),
                ("user_id", .num user.ID)])) ∧
      jwt.DecodeToken toyCrypto world1.now
        (.jws "HS512" [("app_id", .num 1), ("exp", .num 3600), ("user_id", .num 1)]
          "access-key/HS512/3") app.Secret =
        .ok { UserID := user.ID, AppID := 1, Expires := unix (world1.now + svc.tokenExpires) } ∧
      jwt.DecodeToken toyCrypto world1.now
        (.jws "HS512" [("app_id", .num 1), ("exp", .num 86400), ("user_id", .num 1)]
          "refresh-key/HS512/3") app.RefreshSecret =
        .ok { UserID := user.ID, AppID := 1,
              Expires := unix (world1.now + svc.refreshTokenExpires) } :=
  ⟨by decide,
    C11_login_claims svc toyCrypto "a@b.com" "pw12345" 1 world1
      ⟨.jws "HS512" [("app_id", .num 1), ("exp", .num 3600), ("user_id", .num 1)]
          "access-key/HS512/3",
        .jws "HS512" [("app_id", .num 1), ("exp", .num 86400), ("user_id", .num 1)]
          "refresh-key/HS512/3"⟩ (by decide)⟩

/-- C12 (amended): when the storage is down (`pool.Begin` or the query fails),
`Register` and `IsAdmin` return the storage error, which `ResponseError` maps
to Internal "internal error" (as it does every error of `Register` other than
`ErrUserAlreadyExist`, whichever repository call failed); `Login` returns `ErrInvPassOrEmail`, mapped to
InvalidArgument "invalid password or email"; `RefreshToken` and `CurrentUser`
return `ErrInvalidData`, mapped to InvalidArgument "invalid data".  In any
world, a failing `GetAppByID` in `Login` (after the credentials were accepted)
and a failing `GetUserByID` in `CurrentUser` (after the token decoded) give
`ErrInvalidData` too.  The text of the storage error reaches the caller in
none of these. -/
theorem C12_storage_failure_statuses (a : AuthService) (C : Crypto)
    (email password name : String) (token : TokenString) (userID appID : Int) (w : World)
    (hdown : w.storageDown = true) :
    (∃ err, (a.Register C email password name w).1 = (0, some err) ∧
      ResponseError err = ⟨.Internal, "internal error"⟩) ∧
    (∀ err, (a.Register C email password name w).1.2 = some err →
      err = .ErrUserAlreadyExist ∨ ResponseError err = ⟨.Internal, "internal error"⟩) ∧
    (∃ err, (a.IsAdmin userID appID w).1 = (false, some err) ∧
      ResponseError err = ⟨.Internal, "internal error"⟩) ∧
    ((a.Login C email password appID w).1 = (TokensPair.empty, some .ErrInvPassOrEmail) ∧
      ResponseError .ErrInvPassOrEmail = ⟨.InvalidArgument, "invalid password or email"⟩) ∧
    ((a.RefreshToken C token appID w).1 = (TokensPair.empty, some .ErrInvalidData) ∧
      (a.CurrentUser C token appID w).1 = (UserRead.empty, some .ErrInvalidData) ∧
      ResponseError .ErrInvalidData = ⟨.InvalidArgument, "invalid data"⟩) ∧
    (∀ (w2 : World) (user : User) (e : Err), AuthDB.GetUserByEmail email w2 = .ok user →
      bcrypt.CompareHashAndPassword C user.PassHash password = none →
      AppDB.GetAppByID appID w2 = .error e →
      (a.Login C email password appID w2).1 = (TokensPair.empty, some .ErrInvalidData)) ∧
    (∀ (w2 : World) (app : App) (decodeToken : Token) (e : Err),
      AppDB.GetAppByID appID w2 = .ok app → app.Secret ≠ "" → app.RefreshSecret ≠ "" →
      jwt.DecodeToken C w2.now token app.Secret = .ok decodeToken →
      AuthDB.GetUserByID decodeToken.UserID w2 = .error e →
      (a.CurrentUser C token appID w2).1 = (UserRead.empty, some .ErrInvalidData)) := by
  obtain ⟨m1, h1⟩ := AuthDB.CheckUser_down email w hdown
  obtain ⟨m2, h2⟩ := AuthDB.IsAdmin_down userID appID w hdown
  obtain ⟨m3, h3⟩ := AuthDB.GetUserByEmail_down email w hdown
  obtain ⟨m4, h4⟩ := AppDB.GetAppByID_down appID w hdown
  refine ⟨⟨.other m1, ?_, rfl⟩, ?_, ⟨.other m2, ?_, rfl⟩, ⟨?_, rfl⟩, ⟨?_, ?_, rfl⟩, ?_, ?_⟩
  · simp [AuthService.Register, h1]
  · intro err herr
    rcases AuthService.Register_error a C email password name w err herr with h | ⟨msg, h⟩
    · exact Or.inl h
    · subst h
      exact Or.inr rfl
  · simp [AuthService.IsAdmin, h2]
  · simp [AuthService.Login, h3]
  · simp [AuthService.RefreshToken, h4]
  · simp [AuthService.CurrentUser, h4]
  · intro w2 user e hu hcmp he
    simp [AuthService.Login, hu, hcmp, he]
  · intro w2 app decodeToken e happ hsec href hdec hu
    simp [AuthService.CurrentUser, happ, hsec, href, hdec, hu]

/-- C12 (witness): the five operations in `worldDown`, whose database refuses
connections. -/
theorem C12_storage_failure_statuses_witness :
    worldDown.storageDown = true ∧
    (∃ err, (svc.Register toyCrypto "c@d.com" "pw12345" "Carol" worldDown).1 = (0, some err) ∧
      ResponseError err = ⟨.Internal, "internal error"⟩) ∧
    (∀ err, (svc.Register toyCrypto "c@d.com" "pw12345" "Carol" worldDown).1.2 = some err →
      err = .ErrUserAlreadyExist ∨ ResponseError err = ⟨.Internal, "internal error"⟩) ∧
    (∃ err, (svc.IsAdmin 1 1 worldDown).1 = (false, some err) ∧
      ResponseError err = ⟨.Internal, "internal error"⟩) ∧
    ((svc.Login toyCrypto "c@d.com" "pw12345" 1 worldDown).1 =
        (TokensPair.empty, some .ErrInvPassOrEmail) ∧
      ResponseError .ErrInvPassOrEmail = ⟨.InvalidArgument, "invalid password or email"⟩) ∧
    ((svc.RefreshToken toyCrypto (.raw "x.y.z") 1 worldDown).1 =
        (TokensPair.empty, some .ErrInvalidData) ∧
      (svc.CurrentUser toyCrypto (.raw "x.y.z") 1 worldDown).1 =
        (UserRead.empty, some .ErrInvalidData) ∧
      ResponseError .ErrInvalidData = ⟨.InvalidArgument, "invalid data"⟩) :=
  ⟨by decide,
    (C12_storage_failure_statuses svc toyCrypto "c@d.com" "pw12345" "Carol" (.raw "x.y.z") 1 1
      worldDown (by decide)).1,
    (C12_storage_failure_statuses svc toyCrypto "c@d.com" "pw12345" "Carol" (.raw "x.y.z") 1 1
      worldDown (by decide)).2.1,
    (C12_storage_failure_statuses svc toyCrypto "c@d.com" "pw12345" "Carol" (.raw "x.y.z") 1 1
      worldDown (by decide)).2.2.1,
    (C12_storage_failure_statuses svc toyCrypto "c@d.com" "pw12345" "Carol" (.raw "x.y.z") 1 1
      worldDown (by decide)).2.2.2.1,
    (C12_storage_failure_statuses svc toyCrypto "c@d.com" "pw12345" "Carol" (.raw "x.y.z") 1 1
      worldDown (by decide)).2.2.2.2.1⟩

/-- C12 (counterexample): the database refuses connections, so the repository
call `GetUserByEmail` of `Login` (for the registered `alice` with her password)
fails with the storage error "connection refused"; `Login` returns
`ErrInvPassOrEmail` and the handler answers InvalidArgument "invalid password
or email", not Internal.  Likewise `CurrentUser` answers InvalidArgument
"invalid data". -/
theorem C12_counterexample_storage_error_as_InvalidArgument :
    AuthDB.GetUserByEmail "a@b.com" worldDown = .error (.other "connection refused") ∧
    (svc.Login toyCrypto "a@b.com" "pw12345" 1 worldDown).1 =
      (TokensPair.empty, some .ErrInvPassOrEmail) ∧
    (serverAPI.Login svc toyCrypto ⟨"a@b.com", "pw12345", 1⟩ worldDown).1 =
      .error ⟨.InvalidArgument, "invalid password or email"⟩ ∧
    AppDB.GetAppByID 1 worldDown = .error (.other "connection refused") ∧
    (serverAPI.CurrentUser svc toyCrypto
      ⟨jwt.issued toyCrypto 0 1 1 "access-key" 3600000000000, 1⟩ worldDown).1 =
      .error ⟨.InvalidArgument, "invalid data"⟩ :=
  ⟨rfl, by decide, rfl, rfl, rfl⟩

/-- C13: in every execution of `Login`, `RefreshToken` and `CurrentUser` the
trace grows by calls each of which, when it is a `CreateToken` or a
`DecodeToken`, receives a non-empty secret. -/
theorem C13_no_empty_key (a : AuthService) (C : Crypto) (email password : String)
    (token : TokenString) (appID : Int) (w : World) :
    (∃ new, (a.Login C email password appID w).2.calls = w.calls ++ new ∧
      ∀ c ∈ new, c.secretNonEmpty = true) ∧
    (∃ new, (a.RefreshToken C token appID w).2.calls = w.calls ++ new ∧
      ∀ c ∈ new, c.secretNonEmpty = true) ∧
    (∃ new, (a.CurrentUser C token appID w).2.calls = w.calls ++ new ∧
      ∀ c ∈ new, c.secretNonEmpty = true) := by
  refine ⟨?_, ?_, ?_⟩
  · cases hu : AuthDB.GetUserByEmail email w with
    | error e =>
      exact ⟨[.GetUserByEmail email], by simp [AuthService.Login, hu],
        by simp [Call.secretNonEmpty]⟩
    | ok user =>
      cases hcmp : bcrypt.CompareHashAndPassword C user.PassHash password with
      | some e =>
        exact ⟨[.GetUserByEmail email, .CompareHashAndPassword user.PassHash password],
          by simp [AuthService.Login, hu, hcmp], by simp [Call.secretNonEmpty]⟩
      | none =>
        cases happ : AppDB.GetAppByID appID w with
        | error e =>
          exact ⟨[.GetUserByEmail email, .CompareHashAndPassword user.PassHash password,
            .GetAppByID appID], by simp [AuthService.Login, hu, hcmp, happ],
            by simp [Call.secretNonEmpty]⟩
        | ok app =>
          by_cases hs : app.Secret = "" ∨ app.RefreshSecret = ""
          · exact ⟨[.GetUserByEmail email, .CompareHashAndPassword user.PassHash password,
              .GetAppByID appID], by simp [AuthService.Login, hu, hcmp, happ, hs],
              by simp [Call.secretNonEmpty]⟩
          · have hs1 : app.Secret ≠ "" := fun h => hs (Or.inl h)
            have hs2 : app.RefreshSecret ≠ "" := fun h => hs (Or.inr h)
            rw [AuthService.Login_ok a C email password appID w user app hu hcmp happ hs1 hs2]
            exact ⟨[.GetUserByEmail email, .CompareHashAndPassword user.PassHash password,
              .GetAppByID appID, .CreateToken user.ID app.ID app.Secret a.tokenExpires,
              .CreateToken user.ID app.ID app.RefreshSecret a.refreshTokenExpires],
              by simp, by simp [Call.secretNonEmpty, hs1, hs2]⟩
  · cases happ : AppDB.GetAppByID appID w with
    | error e =>
      exact ⟨[.GetAppByID appID], by simp [AuthService.RefreshToken, happ],
        by simp [Call.secretNonEmpty]⟩
    | ok app =>
      by_cases hs : app.Secret = "" ∨ app.RefreshSecret = ""
      · exact ⟨[.GetAppByID appID], by simp [AuthService.RefreshToken, happ, hs],
          by simp [Call.secretNonEmpty]⟩
      · have hs1 : app.Secret ≠ "" := fun h => hs (Or.inl h)
        have hs2 : app.RefreshSecret ≠ "" := fun h => hs (Or.inr h)
        cases hdec : jwt.DecodeToken C w.now token app.RefreshSecret with
        | error e =>
          exact ⟨[.GetAppByID appID, .DecodeToken token app.RefreshSecret],
            by simp [AuthService.RefreshToken, happ, hs1, hs2, hdec],
            by simp [Call.secretNonEmpty, hs2]⟩
        | ok decodeToken =>
          rw [AuthService.RefreshToken_ok a C token appID w app decodeToken happ hs1 hs2 hdec]
          exact ⟨[.GetAppByID appID, .DecodeToken token app.RefreshSecret,
            .CreateToken decodeToken.UserID app.ID app.Secret a.tokenExpires,
            .CreateToken decodeToken.UserID app.ID app.RefreshSecret a.refreshTokenExpires],
            by simp, by simp [Call.secretNonEmpty, hs1, hs2]⟩
  · cases happ : AppDB.GetAppByID appID w with
    | error e =>
      exact ⟨[.GetAppByID appID], by simp [AuthService.CurrentUser, happ],
        by simp [Call.secretNonEmpty]⟩
    | ok app =>
      by_cases hs : app.Secret = "" ∨ app.RefreshSecret = ""
      · exact ⟨[.GetAppByID appID], by simp [AuthService.CurrentUser, happ, hs],
          by simp [Call.secretNonEmpty]⟩
      · have hs1 : app.Secret ≠ "" := fun h => hs (Or.inl h)
        have hs2 : app.RefreshSecret ≠ "" := fun h => hs (Or.inr h)
        cases hdec : jwt.DecodeToken C w.now token app.Secret with
        | error e =>
          exact ⟨[.GetAppByID appID, .DecodeToken token app.Secret],
            by simp [AuthService.CurrentUser, happ, hs1, hs2, hdec],
            by simp [Call.secretNonEmpty, hs1]⟩
        | ok decodeToken =>
          cases hu : AuthDB.GetUserByID decodeToken.UserID w with
          | error e =>
            exact ⟨[.GetAppByID appID, .DecodeToken token app.Secret,
              .GetUserByID decodeToken.UserID],
              by simp [AuthService.CurrentUser, happ, hs1, hs2, hdec, hu],
              by simp [Call.secretNonEmpty, hs1]⟩
          | ok user =>
            exact ⟨[.GetAppByID appID, .DecodeToken token app.Secret,
              .GetUserByID decodeToken.UserID],
              by simp [AuthService.CurrentUser, happ, hs1, hs2, hdec, hu],
              by simp [Call.secretNonEmpty, hs1]⟩

/-- C14: `IsAdmin` (the service over the repository) returns `(false, nil)`
when the storage works and no row of `admin` has the pair (userID, appID), and
`(true, nil)` when the storage works and a row has it; it returns an error
only when the storage call fails (`pool.Begin` or the query), the error is
then the storage's and the boolean is false. -/
theorem C14_IsAdmin_results (a : AuthService) (userID appID : Int) (w : World) :
    (w.storageDown = false →
      (∀ r ∈ w.admins, ¬ (r.UserID = userID ∧ r.AppID = appID)) →
      (a.IsAdmin userID appID w).1 = (false, none)) ∧
    (w.storageDown = false →
      (∃ r ∈ w.admins, r.UserID = userID ∧ r.AppID = appID) →
      (a.IsAdmin userID appID w).1 = (true, none)) ∧
    (∀ err, (a.IsAdmin userID appID w).1.2 = some err →
      w.storageDown = true ∧ AuthDB.IsAdmin userID appID w = .error err ∧
      (a.IsAdmin userID appID w).1.1 = false) ∧
    (w.storageDown = true → ∃ err, (a.IsAdmin userID appID w).1 = (false, some err)) := by
  have hup : w.storageDown = false → w.beginErr = none ∧ w.queryErr = none := by
    intro h
    unfold World.storageDown at h
    cases hb : w.beginErr <;> cases hq : w.queryErr <;> simp [hb, hq] at h
    exact ⟨rfl, rfl⟩
  refine ⟨?_, ?_, ?_, ?_⟩
  · intro h hrow
    obtain ⟨hb, hq⟩ := hup h
    have hf : w.admins.find? (fun r => r.UserID == userID && r.AppID == appID) = none := by
      rw [List.find?_eq_none]
      intro r hr
      simpa using hrow r hr
    simp [AuthService.IsAdmin, AuthDB.IsAdmin, hb, hq, hf]
  · intro h hrow
    obtain ⟨hb, hq⟩ := hup h
    obtain ⟨r, hr, h1, h2⟩ := hrow
    have hsome : (w.admins.find? (fun r => r.UserID == userID && r.AppID == appID)).isSome := by
      rw [List.find?_isSome]
      exact ⟨r, hr, by simp [h1, h2]⟩
    cases hf : w.admins.find? (fun r => r.UserID == userID && r.AppID == appID) with
    | none => simp [hf] at hsome
    | some v => simp [AuthService.IsAdmin, AuthDB.IsAdmin, hb, hq, hf]
  · intro err herr
    cases hdb : AuthDB.IsAdmin userID appID w with
    | ok b => simp [AuthService.IsAdmin, hdb] at herr
    | error e =>
      simp [AuthService.IsAdmin, hdb] at herr
      subst herr
      refine ⟨?_, rfl, by simp [AuthService.IsAdmin, hdb]⟩
      cases hs : w.storageDown with
      | true => rfl
      | false =>
        obtain ⟨hb, hq⟩ := hup hs
        unfold AuthDB.IsAdmin at hdb
        cases hf : w.admins.find? (fun r => r.UserID == userID && r.AppID == appID) <;>
          simp [hb, hq, hf] at hdb
  · intro h
    obtain ⟨msg, hm⟩ := AuthDB.IsAdmin_down userID appID w h
    exact ⟨.other msg, by simp [AuthService.IsAdmin, hm]⟩

/-- C14 (witness): in `world2` `alice` (id 1) is an admin of the app 1 and not
of the app 2; in `worldDown` the storage fails. -/
theorem C14_IsAdmin_results_witness :
    (svc.IsAdmin 1 1 world2).1 = (true, none) ∧
    (svc.IsAdmin 1 2 world2).1 = (false, none) ∧
    (svc.IsAdmin 1 1 worldDown).1 = (false, some (.other "connection refused")) ∧
    world2.storageDown = false ∧
    (∃ r ∈ world2.admins, r.UserID = 1 ∧ r.AppID = 1) ∧
    (∀ r ∈ world2.admins, ¬ (r.UserID = 1 ∧ r.AppID = 2)) :=
  ⟨(C14_IsAdmin_results svc 1 1 world2).2.1 (by decide) (by decide),
    (C14_IsAdmin_results svc 1 2 world2).1 (by decide) (by decide),
    by decide, by decide, by decide, by decide⟩

/-- C15: `validateRegister` reports "empty email" when the email is empty,
else "empty password" when the password is empty, else "empty name" when the
name is empty, else nil; `validateLogin` reports "empty email", else "empty
password", else "empty app id" when the app id is 0, else nil; all with the
code InvalidArgument.  Each returns nil exactly when its three fields are
present. -/
theorem C15_validation_order (r : RegisterRequest) (l : LoginRequest) :
    (r.Email = "" → validateRegister r = some ⟨.InvalidArgument, "empty email"⟩) ∧
    (r.Email ≠ "" → r.Password = "" →
      validateRegister r = some ⟨.InvalidArgument, "empty password"⟩) ∧
    (r.Email ≠ "" → r.Password ≠ "" → r.Name = "" →
      validateRegister r = some ⟨.InvalidArgument, "empty name"⟩) ∧
    (validateRegister r = none ↔ r.Email ≠ "" ∧ r.Password ≠ "" ∧ r.Name ≠ "") ∧
    (l.Email = "" → validateLogin l = some ⟨.InvalidArgument, "empty email"⟩) ∧
    (l.Email ≠ "" → l.Password = "" →
      validateLogin l = some ⟨.InvalidArgument, "empty password"⟩) ∧
    (l.Email ≠ "" → l.Password ≠ "" → l.AppId = 0 →
      validateLogin l = some ⟨.InvalidArgument, "empty app id"⟩) ∧
    (validateLogin l = none ↔ l.Email ≠ "" ∧ l.Password ≠ "" ∧ l.AppId ≠ 0) := by
  unfold validateRegister validateLogin emptyValue
  refine ⟨?_, ?_, ?_, ?_, ?_, ?_, ?_, ?_⟩
  · intro h; simp [h]
  · intro h1 h2; simp [h1, h2]
  · intro h1 h2 h3; simp [h1, h2, h3]
  · by_cases h1 : r.Email = "" <;> by_cases h2 : r.Password = "" <;>
      by_cases h3 : r.Name = "" <;> simp [h1, h2, h3]
  · intro h; simp [h]
  · intro h1 h2; simp [h1, h2]
  · intro h1 h2 h3; simp [h1, h2, h3]
  · by_cases h1 : l.Email = "" <;> by_cases h2 : l.Password = "" <;>
      by_cases h3 : l.AppId = 0 <;> simp [h1, h2, h3]

/-- C16: for an app that resolves with both secrets non-empty: when the token
decodes under the access secret and the repository returns a user for the
`UserID` of its claims, `CurrentUser` returns exactly the id, name and email
of that user and no error, whatever the password hash of the user is (a
`UserRead` has no field for it); when the token does not decode under the
access secret, `CurrentUser` returns the empty `UserRead` with
`ErrUnauthorized` after the calls `GetAppByID` and `DecodeToken` only, so
`GetUserByID` is not called. -/
theorem C16_current_user (a : AuthService) (C : Crypto) (token : TokenString) (appID : Int)
    (w : World) (app : App)
    (happ : AppDB.GetAppByID appID w = .ok app)
    (hsec : app.Secret ≠ "") (href : app.RefreshSecret ≠ "") :
    (∀ decodeToken user, jwt.DecodeToken C w.now token app.Secret = .ok decodeToken →
      AuthDB.GetUserByID decodeToken.UserID w = .ok user →
      (a.CurrentUser C token appID w).1 = (⟨user.ID, user.Name, user.Email⟩, none) ∧
      ∀ (w2 : World) (hash : HashString),
        AppDB.GetAppByID appID w2 = .ok app → w2.now = w.now →
        AuthDB.GetUserByID decodeToken.UserID w2 = .ok { user with PassHash := hash } →
        (a.CurrentUser C token appID w2).1 = (a.CurrentUser C token appID w).1) ∧
    (∀ e, jwt.DecodeToken C w.now token app.Secret = .error e →
      a.CurrentUser C token appID w =
        ((UserRead.empty, some .ErrUnauthorized),
          (w.call (.GetAppByID appID)).call (.DecodeToken token app.Secret)) ∧
      (a.CurrentUser C token appID w).2.calls =
        w.calls ++ [.GetAppByID appID, .DecodeToken token app.Secret]) := by
  refine ⟨?_, ?_⟩
  · intro decodeToken user hdec hu
    have h1 := AuthService.CurrentUser_ok a C token appID w app decodeToken user happ hsec href
      hdec hu
    refine ⟨by rw [h1], ?_⟩
    intro w2 hash happ2 hnow hu2
    rw [← hnow] at hdec
    rw [AuthService.CurrentUser_ok a C token appID w2 app decodeToken _ happ2 hsec href hdec hu2,
      h1]
  · intro e hbad
    have h : a.CurrentUser C token appID w =
        ((UserRead.empty, some .ErrUnauthorized),
          (w.call (.GetAppByID appID)).call (.DecodeToken token app.Secret)) := by
      simp [AuthService.CurrentUser, happ, hsec, href, hbad]
    rw [h]
    exact ⟨rfl, by simp⟩

/-- C16 (witness): in `world1`, for the app `shop`, the access token of
`alice` and the same token with a forged signature. -/
theorem C16_current_user_witness :
    AppDB.GetAppByID 1 world1 = .ok shop ∧
    jwt.DecodeToken toyCrypto world1.now (jwt.issued toyCrypto 0 1 1 "access-key" 3600000000000)
      shop.Secret = .ok { UserID := 1, AppID := 1, Expires := 3600 } ∧
    AuthDB.GetUserByID 1 world1 = .ok alice ∧
    (svc.CurrentUser toyCrypto (jwt.issued toyCrypto 0 1 1 "access-key" 3600000000000) 1
      world1).1 = (⟨1, "Alice", "a@b.com"⟩, none) ∧
    (svc.CurrentUser toyCrypto
      (.jws "HS512" [("app_id", .num 1), ("exp", .num 3600), ("user_id", .num 1)] "forged") 1
      world1) =
      ((UserRead.empty, some .ErrUnauthorized),
        (world1.call (.GetAppByID 1)).call (.DecodeToken
          (.jws "HS512" [("app_id", .num 1), ("exp", .num 3600), ("user_id", .num 1)] "forged")
          shop.Secret)) :=
  ⟨rfl, rfl, rfl,
    ((C16_current_user svc toyCrypto (jwt.issued toyCrypto 0 1 1 "access-key" 3600000000000) 1
      world1 shop rfl (by decide) (by decide)).1
        { UserID := 1, AppID := 1, Expires := 3600 } alice rfl rfl).1,
    ((C16_current_user svc toyCrypto
      (.jws "HS512" [("app_id", .num 1), ("exp", .num 3600), ("user_id", .num 1)] "forged") 1
      world1 shop rfl (by decide) (by decide)).2
        (.other "failed to decode token: token signature is invalid") rfl).1⟩

/-- C17: when `CurrentUser` is given a token that decodes under the access
secret of a usable app but the lookup of the claimed user fails, it returns
the empty `UserRead` with `ErrInvalidData`, the very result it returns for a
missing or misconfigured tenant; `ResponseError` maps it to InvalidArgument
"invalid data". -/
theorem C17_missing_user_as_invalid_tenant (a : AuthService) (C : Crypto)
    (token token2 : TokenString) (appID appID2 : Int) (w w2 : World) (app : App)
    (decodeToken : Token) (e : Err)
    (happ : AppDB.GetAppByID appID w = .ok app)
    (hsec : app.Secret ≠ "") (href : app.RefreshSecret ≠ "")
    (hdec : jwt.DecodeToken C w.now token app.Secret = .ok decodeToken)
    (hmissing : AuthDB.GetUserByID decodeToken.UserID w = .error e)
    (htenant : tenantUnusable appID2 w2 = true) :
    (a.CurrentUser C token appID w).1 = (UserRead.empty, some .ErrInvalidData) ∧
    (a.CurrentUser C token2 appID2 w2).1 = (UserRead.empty, some .ErrInvalidData) ∧
    (a.CurrentUser C token appID w).1 = (a.CurrentUser C token2 appID2 w2).1 ∧
    ResponseError .ErrInvalidData = ⟨.InvalidArgument, "invalid data"⟩ := by
  have h1 : (a.CurrentUser C token appID w).1 = (UserRead.empty, some .ErrInvalidData) := by
    simp [AuthService.CurrentUser, happ, hsec, href, hdec, hmissing]
  have h2 : (a.CurrentUser C token2 appID2 w2).1 = (UserRead.empty, some .ErrInvalidData) := by
    rw [tenantUnusable_iff] at htenant
    rcases htenant with ⟨e2, he⟩ | ⟨app2, happ2, hs⟩
    · simp [AuthService.CurrentUser, he]
    · simp [AuthService.CurrentUser, happ2, hs]
  exact ⟨h1, h2, h1.trans h2.symm, rfl⟩

/-- C17 (witness): in `world1` a token of the app `shop` for the user id 7,
which no row has, against a token presented for the app id 9, which no app
has. -/
theorem C17_missing_user_as_invalid_tenant_witness :
    AppDB.GetAppByID 1 world1 = .ok shop ∧
    jwt.DecodeToken toyCrypto world1.now (jwt.issued toyCrypto 0 7 1 "access-key" 3600000000000)
      shop.Secret = .ok { UserID := 7, AppID := 1, Expires := 3600 } ∧
    AuthDB.GetUserByID 7 world1 = .error (.other "user not found") ∧
    tenantUnusable 9 world1 = true ∧
    (svc.CurrentUser toyCrypto (jwt.issued toyCrypto 0 7 1 "access-key" 3600000000000) 1
      world1).1 = (UserRead.empty, some .ErrInvalidData) ∧
    (svc.CurrentUser toyCrypto (jwt.issued toyCrypto 0 1 1 "access-key" 3600000000000) 9
      world1).1 = (UserRead.empty, some .ErrInvalidData) ∧
    (svc.CurrentUser toyCrypto (jwt.issued toyCrypto 0 7 1 "access-key" 3600000000000) 1
      world1).1 =
      (svc.CurrentUser toyCrypto (jwt.issued toyCrypto 0 1 1 "access-key" 3600000000000) 9
        world1).1 ∧
    ResponseError .ErrInvalidData = ⟨.InvalidArgument, "invalid data"⟩ :=
  ⟨rfl, rfl, rfl, by decide,
    C17_missing_user_as_invalid_tenant svc toyCrypto
      (jwt.issued toyCrypto 0 7 1 "access-key" 3600000000000)
      (jwt.issued toyCrypto 0 1 1 "access-key" 3600000000000) 1 9 world1 world1 shop
      { UserID := 7, AppID := 1, Expires := 3600 } (.other "user not found") rfl (by decide)
      (by decide) rfl rfl (by decide)⟩

/-- C18: for an app that resolves with both secrets non-empty and a token that
decodes under its refresh secret, whatever `AppID` the decoded claims carry,
`RefreshToken` succeeds and both tokens of the new pair are made for the
`UserID` of the presented token and the id of the app, which is the app id
asked for: they decode to claims with that `UserID` and that `AppID`.  The
`AppID` of the presented token appears nowhere in the result. -/
theorem C18_refresh_claims (a : AuthService) (C : Crypto) (token : TokenString) (appID : Int)
    (w : World) (app : App) (decodeToken : Token)
    (happ : AppDB.GetAppByID appID w = .ok app)
    (hsec : app.Secret ≠ "") (href : app.RefreshSecret ≠ "")
    (hdec : jwt.DecodeToken C w.now token app.RefreshSecret = .ok decodeToken) :
    app.ID = appID ∧
    (a.RefreshToken C token appID w).1 =
      (⟨jwt.issued C w.now decodeToken.UserID appID app.Secret a.tokenExpires,
        jwt.issued C w.now decodeToken.UserID appID app.RefreshSecret a.refreshTokenExpires⟩,
        none) ∧
    jwt.DecodeToken C w.now
      (jwt.issued C w.now decodeToken.UserID appID app.Secret a.tokenExpires) app.Secret =
      .ok { UserID := decodeToken.UserID, AppID := appID,
            Expires := unix (w.now + a.tokenExpires) } ∧
    jwt.DecodeToken C w.now
      (jwt.issued C w.now decodeToken.UserID appID app.RefreshSecret a.refreshTokenExpires)
      app.RefreshSecret =
      .ok { UserID := decodeToken.UserID, AppID := appID,
            Expires := unix (w.now + a.refreshTokenExpires) } := by
  have hid := AppDB.GetAppByID_id appID w app happ
  refine ⟨hid, ?_, jwt.DecodeToken_issued C _ _ _ _ _ _, jwt.DecodeToken_issued C _ _ _ _ _ _⟩
  rw [AuthService.RefreshToken_ok a C token appID w app decodeToken happ hsec href hdec, hid]

/-- C18 (witness): a token signed with the refresh secret of `shop` whose
`app_id` claim is 2 is presented for the app id 1: the new pair carries the
app id 1. -/
theorem C18_refresh_claims_witness :
    AppDB.GetAppByID 1 world1 = .ok shop ∧
    jwt.DecodeToken toyCrypto world1.now (jwt.issued toyCrypto 0 1 2 "refresh-key" 86400000000000)
      shop.RefreshSecret = .ok { UserID := 1, AppID := 2, Expires := 86400 } ∧
    shop.ID = 1 ∧
    (svc.RefreshToken toyCrypto (jwt.issued toyCrypto 0 1 2 "refresh-key" 86400000000000) 1
      world1).1 =
      (⟨jwt.issued toyCrypto 0 1 1 "access-key" 3600000000000,
        jwt.issued toyCrypto 0 1 1 "refresh-key" 86400000000000⟩, none) ∧
    jwt.DecodeToken toyCrypto 0 (jwt.issued toyCrypto 0 1 1 "access-key" 3600000000000)
      "access-key" = .ok { UserID := 1, AppID := 1, Expires := 3600 } ∧
    jwt.DecodeToken toyCrypto 0 (jwt.issued toyCrypto 0 1 1 "refresh-key" 86400000000000)
      "refresh-key" = .ok { UserID := 1, AppID := 1, Expires := 86400 } :=
  ⟨rfl, rfl,
    C18_refresh_claims svc toyCrypto (jwt.issued toyCrypto 0 1 2 "refresh-key" 86400000000000) 1
      world1 shop { UserID := 1, AppID := 2, Expires := 86400 } rfl (by decide) (by decide) rfl⟩

/-- C19: with a negative `attemps` (here -1 and a `fn` that always fails, and
for every negative count) `DoWithTries` returns nil without having invoked
`fn`: the check `attemps == 0` lets a negative count through and `for range
attemps` then runs no iteration.  With `attemps` 0 it returns the error
"attemps count can not be 0" without invoking `fn`.  With a positive `attemps`
it invokes `fn` at least once and at most `attemps` times, every invocation
before the last one failed, it returns what the last invocation returned (nil
at the first success, else the last error), and when it returns an error all
`attemps` invocations were made. -/
theorem C19_DoWithTries_negative_attemps_returns_nil :
    ((DoWithTries alwaysFails (-1) 1000000000 0).err = none ∧
      (DoWithTries alwaysFails (-1) 1000000000 0).invocations = 0) ∧
    (∀ (σ : Type) (fn : σ → Option Err × σ) (attemps delay : Int) (s : σ), attemps < 0 →
      (DoWithTries fn attemps delay s).err = none ∧
      (DoWithTries fn attemps delay s).invocations = 0 ∧
      (DoWithTries fn attemps delay s).state = s) ∧
    (∀ (σ : Type) (fn : σ → Option Err × σ) (delay : Int) (s : σ),
      (DoWithTries fn 0 delay s).err = some (.other "attemps count can not be 0") ∧
      (DoWithTries fn 0 delay s).invocations = 0 ∧
      (DoWithTries fn 0 delay s).state = s) ∧
    (∀ (σ : Type) (fn : σ → Option Err × σ) (attemps delay : Int) (s : σ), 0 < attemps →
      1 ≤ (DoWithTries fn attemps delay s).invocations ∧
      ((DoWithTries fn attemps delay s).invocations : Int) ≤ attemps ∧
      (DoWithTries fn attemps delay s).err =
        DoWithTries.resultAt fn s ((DoWithTries fn attemps delay s).invocations - 1) ∧
      (∀ k, k + 1 < (DoWithTries fn attemps delay s).invocations →
        DoWithTries.resultAt fn s k ≠ none) ∧
      ((DoWithTries fn attemps delay s).err ≠ none →
        ((DoWithTries fn attemps delay s).invocations : Int) = attemps) ∧
      (DoWithTries fn attemps delay s).state =
        DoWithTries.stateAt fn s (DoWithTries fn attemps delay s).invocations) ∧
    ((DoWithTries thirdTimeLucky 5 1000000000 0).err = none ∧
      (DoWithTries thirdTimeLucky 5 1000000000 0).invocations = 3 ∧
      (DoWithTries thirdTimeLucky 5 1000000000 0).slept = 2000000000 ∧
      (DoWithTries alwaysFails 3 1000000000 0).err = some (.other "connection refused") ∧
      (DoWithTries alwaysFails 3 1000000000 0).invocations = 3) := by
  refine ⟨⟨rfl, rfl⟩, ?_, ?_, ?_, ⟨rfl, rfl, rfl, rfl, rfl⟩⟩
  · intro σ fn attemps delay s hneg
    have h0 : attemps ≠ 0 := by omega
    have ht : attemps.toNat = 0 := by omega
    simp [DoWithTries, h0, ht, DoWithTries.loop]
  · intro σ fn delay s
    simp [DoWithTries]
  · intro σ fn attemps delay s hpos
    have h0 : attemps ≠ 0 := by omega
    obtain ⟨n, hn⟩ : ∃ n : Nat, attemps.toNat = n + 1 := ⟨attemps.toNat - 1, by omega⟩
    have hat : attemps = ((n + 1 : Nat) : Int) := by omega
    have hdo : DoWithTries fn attemps delay s = DoWithTries.loop fn delay (n + 1) none s := by
      simp [DoWithTries, h0, hn]
    rw [hdo]
    obtain ⟨h1, h2, h3, h4, h5, h6⟩ := DoWithTries.loop_succ fn delay n none s
    refine ⟨h1, ?_, h3, h4, ?_, h6⟩
    · rw [hat]
      exact_mod_cast h2
    · intro hne
      rw [hat]
      exact_mod_cast h5 hne

end SSO
